import Mathlib

/-!
Verification of the go-game-vision repository: the multi-scale template
matching search (pkg/image compare code), the coordinate mapper, the Windows
capture fallback chain, and the find-and-click convenience layer.

Numeric conventions of the embedding:
* Go float64 values are modelled as the exact rational numbers they denote.
  Go float64 addition and multiplication round their exact result to the
  nearest representable binary64 value (ties to even); the function round64
  below performs that rounding on rationals.  The model ignores overflow and
  subnormal underflow, which is exact for every magnitude appearing in the
  claims (all values lie well inside the normal range).
* Go int values are modelled as unbounded integers; the claims stay far from
  64-bit overflow.
* The OpenCV correlation primitive (gocv.MatchTemplate followed by
  gocv.MinMaxLoc) is external code: it is deterministic in the source image
  and the resized template, and the resized template is determined by the
  requested size.  It is therefore modelled as an oracle parameter
  corr : scaled template size → (maxVal, maxLoc).
-/

namespace GoGameVision

/-- Round a rational to the nearest integer, ties to even (IEEE default). -/
def roundHalfEvenInt (q : ℚ) : ℤ :=
  let f : ℤ := ⌊q⌋
  let r : ℚ := q - (f : ℚ)
  if r < 1/2 then f
  else if 1/2 < r then f + 1
  else if f % 2 = 0 then f else f + 1

/-- Binary logarithm (floor) of a natural number, by fuel-bounded structural
recursion so that it evaluates inside proofs. -/
def log2Fuel : ℕ → ℕ → ℕ
  | 0, _ => 0
  | fuel + 1, m => if 2 ≤ m then log2Fuel fuel (m / 2) + 1 else 0

/-- For 0 < q < 1, the number of doublings needed to reach at least 1
(bounded by the fuel, far larger than any exponent met here). -/
def negExpAux : ℚ → ℕ → ℕ
  | _, 0 => 0
  | q, n + 1 => if 1 ≤ q then 0 else negExpAux (2 * q) n + 1

/-- Round a nonnegative rational to the nearest binary64 value
(53-bit significand, round to nearest, ties to even; unbounded exponent). -/
def round64Pos (q : ℚ) : ℚ :=
  if q = 0 then 0
  else if 1 ≤ q then
    if log2Fuel 2000 (Int.toNat ⌊q⌋) ≤ 52 then
      (roundHalfEvenInt (q * 2 ^ (52 - log2Fuel 2000 (Int.toNat ⌊q⌋))) : ℚ) /
        2 ^ (52 - log2Fuel 2000 (Int.toNat ⌊q⌋))
    else
      (roundHalfEvenInt (q / 2 ^ (log2Fuel 2000 (Int.toNat ⌊q⌋) - 52)) : ℚ) *
        2 ^ (log2Fuel 2000 (Int.toNat ⌊q⌋) - 52)
  else
    (roundHalfEvenInt (q * 2 ^ (52 + negExpAux q 2000)) : ℚ) /
      2 ^ (52 + negExpAux q 2000)

/-- Round a rational to the nearest binary64 value. -/
def round64 (q : ℚ) : ℚ :=
  if q < 0 then -round64Pos (-q) else round64Pos q

/-- Go float64 addition: exact sum, then rounding to binary64. -/
def fadd (a b : ℚ) : ℚ := round64 (a + b)

/-- Go float64 multiplication: exact product, then rounding to binary64. -/
def fmul (a b : ℚ) : ℚ := round64 (a * b)

section FloatEval

/-- Evaluate the integer floor of a rational from two bounds. -/
theorem floorRat_eval (x : ℚ) (n : ℤ) (h1 : (n : ℚ) ≤ x) (h2 : x < n + 1) :
    ⌊x⌋ = n :=
  Int.floor_eq_iff.mpr ⟨h1, h2⟩

/-- Round-to-nearest evaluation, case below the midpoint. -/
theorem roundHalfEvenInt_eval_low (x : ℚ) (n : ℤ)
    (h1 : (n : ℚ) ≤ x) (h2 : x < n + 1/2) : roundHalfEvenInt x = n := by
  have hf : ⌊x⌋ = n := floorRat_eval x n h1 (by linarith)
  unfold roundHalfEvenInt
  rw [hf]
  have hx : x - (n : ℚ) < 1/2 := by linarith
  rw [if_pos hx]

/-- Round-to-nearest evaluation, case above the midpoint. -/
theorem roundHalfEvenInt_eval_high (x : ℚ) (n : ℤ)
    (h1 : (n : ℚ) + 1/2 < x) (h2 : x < n + 1) : roundHalfEvenInt x = n + 1 := by
  have hf : ⌊x⌋ = n := floorRat_eval x n (by linarith) h2
  unfold roundHalfEvenInt
  rw [hf]
  have hx1 : ¬ (x - (n : ℚ) < 1/2) := by linarith
  have hx2 : 1/2 < x - (n : ℚ) := by linarith
  rw [if_neg hx1, if_pos hx2]

/-- Round-to-nearest evaluation at a midpoint whose floor is odd. -/
theorem roundHalfEvenInt_eval_tie_odd (x : ℚ) (n : ℤ)
    (h : x = (n : ℚ) + 1/2) (hn : n % 2 = 1) : roundHalfEvenInt x = n + 1 := by
  have hf : ⌊x⌋ = n := floorRat_eval x n (by rw [h]; linarith) (by rw [h]; linarith)
  unfold roundHalfEvenInt
  rw [hf]
  have hx1 : ¬ (x - (n : ℚ) < 1/2) := by rw [h]; norm_num
  have hx2 : ¬ (1/2 < x - (n : ℚ)) := by rw [h]; norm_num
  have hmod : ¬ (n % 2 = 0) := by omega
  rw [if_neg hx1, if_neg hx2, if_neg hmod]

/-- The rounding is exact on integers. -/
theorem roundHalfEvenInt_intCast (n : ℤ) : roundHalfEvenInt (n : ℚ) = n := by
  refine roundHalfEvenInt_eval_low _ n le_rfl ?_
  norm_num

theorem log2Fuel_spec : ∀ (fuel m : ℕ), 1 ≤ m → m ≤ 2 ^ fuel →
    2 ^ log2Fuel fuel m ≤ m ∧ m < 2 ^ (log2Fuel fuel m + 1) := by
  intro fuel
  induction fuel with
  | zero =>
    intro m h1 h2
    have : m = 1 := by omega
    subst this
    simp [log2Fuel]
  | succ n ih =>
    intro m h1 h2
    by_cases h : 2 ≤ m
    · have hm2 : 1 ≤ m / 2 := by omega
      have hm2b : m / 2 ≤ 2 ^ n := by
        have := Nat.div_le_div_right (c := 2) h2
        simpa [Nat.pow_succ, Nat.mul_div_cancel] using this
      obtain ⟨ha, hb⟩ := ih (m / 2) hm2 hm2b
      have hstep : log2Fuel (n + 1) m = log2Fuel n (m / 2) + 1 := by
        simp [log2Fuel, h]
      rw [hstep]
      constructor
      · have : 2 ^ (log2Fuel n (m / 2) + 1) = 2 * 2 ^ log2Fuel n (m / 2) := by ring
        rw [this]
        omega
      · have : 2 ^ (log2Fuel n (m / 2) + 1 + 1) = 4 * 2 ^ log2Fuel n (m / 2) := by ring
        rw [this]
        have h4 : m / 2 + 1 ≤ 2 ^ (log2Fuel n (m / 2) + 1) := hb
        have : 2 ^ (log2Fuel n (m / 2) + 1) = 2 * 2 ^ log2Fuel n (m / 2) := by ring
        omega
    · have : m = 1 := by omega
      subst this
      simp [log2Fuel, h]

theorem log2_unique {a e m : ℕ} (ha1 : 2 ^ a ≤ m) (ha2 : m < 2 ^ (a + 1))
    (he1 : 2 ^ e ≤ m) (he2 : m < 2 ^ (e + 1)) : a = e := by
  rcases lt_trichotomy a e with h | h | h
  · have : (2 : ℕ) ^ (a + 1) ≤ 2 ^ e := Nat.pow_le_pow_right (by norm_num) (by omega)
    omega
  · exact h
  · have : (2 : ℕ) ^ (e + 1) ≤ 2 ^ a := Nat.pow_le_pow_right (by norm_num) (by omega)
    omega

theorem negExpAux_ge : ∀ (fuel : ℕ) (q : ℚ), 0 < q → 1 ≤ 2 ^ fuel * q →
    1 ≤ 2 ^ negExpAux q fuel * q := by
  intro fuel
  induction fuel with
  | zero =>
    intro q _ h
    simpa [negExpAux] using h
  | succ n ih =>
    intro q hq h
    by_cases h1 : 1 ≤ q
    · simp [negExpAux, h1]
    · have hstep : negExpAux q (n + 1) = negExpAux (2 * q) n + 1 := by
        simp [negExpAux, h1]
      rw [hstep]
      have h2q : (0 : ℚ) < 2 * q := by linarith
      have hh : 1 ≤ 2 ^ n * (2 * q) := by
        calc (1 : ℚ) ≤ 2 ^ (n + 1) * q := h
        _ = 2 ^ n * (2 * q) := by ring
      have := ih (2 * q) h2q hh
      calc (1 : ℚ) ≤ 2 ^ negExpAux (2 * q) n * (2 * q) := this
      _ = 2 ^ (negExpAux (2 * q) n + 1) * q := by ring

theorem negExpAux_lt : ∀ (fuel : ℕ) (q : ℚ), 0 < q → q < 1 →
    2 ^ negExpAux q fuel * q < 2 := by
  intro fuel
  induction fuel with
  | zero =>
    intro q _ h
    simpa [negExpAux] using by linarith
  | succ n ih =>
    intro q hq h
    have h1 : ¬ (1 ≤ q) := by linarith
    have hstep : negExpAux q (n + 1) = negExpAux (2 * q) n + 1 := by
      simp [negExpAux, h1]
    rw [hstep]
    by_cases h2 : 2 * q < 1
    · have h2q : (0 : ℚ) < 2 * q := by linarith
      have := ih (2 * q) h2q h2
      calc 2 ^ (negExpAux (2 * q) n + 1) * q = 2 ^ negExpAux (2 * q) n * (2 * q) := by ring
      _ < 2 := this
    · have hz : negExpAux (2 * q) n = 0 := by
        cases n with
        | zero => simp [negExpAux]
        | succ k =>
          have : (1 : ℚ) ≤ 2 * q := by linarith
          simp [negExpAux, this]
      rw [hz]
      have : 2 ^ (0 + 1) * q = 2 * q := by ring
      rw [this]
      linarith

theorem negExp_unique {j j' : ℕ} {q : ℚ} (hq : 0 < q)
    (h1 : 1 ≤ 2 ^ j * q) (h2 : 2 ^ j * q < 2)
    (h3 : 1 ≤ 2 ^ j' * q) (h4 : 2 ^ j' * q < 2) : j = j' := by
  rcases lt_trichotomy j j' with h | h | h
  · exfalso
    have hle : j + 1 ≤ j' := by omega
    have : (2 : ℚ) ^ (j + 1) * q ≤ 2 ^ j' * q := by
      have hp : (2 : ℚ) ^ (j + 1) ≤ 2 ^ j' := by
        exact_mod_cast Nat.pow_le_pow_right (by norm_num) hle
      exact mul_le_mul_of_nonneg_right hp (le_of_lt hq)
    have : (2 : ℚ) ≤ 2 ^ j' * q := by
      calc (2 : ℚ) = 2 * 1 := by ring
      _ ≤ 2 * (2 ^ j * q) := by linarith
      _ = 2 ^ (j + 1) * q := by ring
      _ ≤ 2 ^ j' * q := this
    linarith
  · exact h
  · exfalso
    have hle : j' + 1 ≤ j := by omega
    have hp : (2 : ℚ) ^ (j' + 1) ≤ 2 ^ j := by
      exact_mod_cast Nat.pow_le_pow_right (by norm_num) hle
    have : (2 : ℚ) ≤ 2 ^ j * q := by
      calc (2 : ℚ) = 2 * 1 := by ring
      _ ≤ 2 * (2 ^ j' * q) := by linarith
      _ = 2 ^ (j' + 1) * q := by ring
      _ ≤ 2 ^ j * q := mul_le_mul_of_nonneg_right hp (le_of_lt hq)
    linarith

/-- Evaluation of round64Pos for arguments at least one: e is the binary
exponent, n the correctly rounded significand. -/
theorem round64Pos_eval_pos (q : ℚ) (e : ℕ) (n : ℤ)
    (h1 : 2 ^ e ≤ q) (h2 : q < 2 ^ (e + 1)) (he : e ≤ 52)
    (hn : roundHalfEvenInt (q * 2 ^ (52 - e)) = n) :
    round64Pos q = (n : ℚ) / 2 ^ (52 - e) := by
  have h2e : (1 : ℚ) ≤ 2 ^ e := by exact_mod_cast Nat.one_le_two_pow (n := e)
  have hq1 : (1 : ℚ) ≤ q := le_trans h2e h1
  have hq0 : q ≠ 0 := by linarith
  have hfl : (2 ^ e : ℤ) ≤ ⌊q⌋ := by
    rw [Int.le_floor]
    exact_mod_cast h1
  have hfu : ⌊q⌋ < (2 ^ (e + 1) : ℤ) := by
    rw [Int.floor_lt]
    exact_mod_cast h2
  have hnn : (0 : ℤ) ≤ ⌊q⌋ := le_trans (by positivity) hfl
  have hlow : (2 : ℕ) ^ e ≤ Int.toNat ⌊q⌋ := by
    have h' : ((2 : ℕ) ^ e : ℤ) ≤ (Int.toNat ⌊q⌋ : ℤ) := by
      rw [Int.toNat_of_nonneg hnn]
      exact_mod_cast hfl
    exact_mod_cast h'
  have hhigh : Int.toNat ⌊q⌋ < 2 ^ (e + 1) := by
    have h' : (Int.toNat ⌊q⌋ : ℤ) < ((2 : ℕ) ^ (e + 1) : ℤ) := by
      rw [Int.toNat_of_nonneg hnn]
      exact_mod_cast hfu
    exact_mod_cast h'
  have hone : 1 ≤ Int.toNat ⌊q⌋ := le_trans Nat.one_le_two_pow hlow
  have hbound : Int.toNat ⌊q⌋ ≤ 2 ^ 2000 := by
    have h53 : (2 : ℕ) ^ (e + 1) ≤ 2 ^ 2000 := Nat.pow_le_pow_right (by norm_num) (by omega)
    exact le_trans (le_of_lt hhigh) h53
  obtain ⟨hs1, hs2⟩ := log2Fuel_spec 2000 (Int.toNat ⌊q⌋) hone hbound
  have hlog : log2Fuel 2000 (Int.toNat ⌊q⌋) = e := log2_unique hs1 hs2 hlow hhigh
  unfold round64Pos
  rw [if_neg hq0, if_pos hq1, hlog, if_pos he, hn]

/-- Evaluation of round64Pos for arguments below one: j is the number of
doublings to normalize, n the correctly rounded significand. -/
theorem round64Pos_eval_neg (q : ℚ) (j : ℕ) (n : ℤ)
    (hq : 0 < q) (hlt : q < 1) (hj : j ≤ 2000)
    (h1 : 1 ≤ 2 ^ j * q) (h2 : 2 ^ j * q < 2)
    (hn : roundHalfEvenInt (q * 2 ^ (52 + j)) = n) :
    round64Pos q = (n : ℚ) / 2 ^ (52 + j) := by
  have hq0 : q ≠ 0 := by linarith
  have hq1 : ¬ ((1 : ℚ) ≤ q) := by linarith
  have hfull : 1 ≤ 2 ^ (2000 : ℕ) * q := by
    have hp : (2 : ℚ) ^ j ≤ 2 ^ 2000 := by
      exact_mod_cast Nat.pow_le_pow_right (by norm_num) hj
    calc (1 : ℚ) ≤ 2 ^ j * q := h1
    _ ≤ 2 ^ 2000 * q := mul_le_mul_of_nonneg_right hp (le_of_lt hq)
  have hg := negExpAux_ge 2000 q hq hfull
  have hl := negExpAux_lt 2000 q hq hlt
  have hne : negExpAux q 2000 = j := negExp_unique hq hg hl h1 h2
  unfold round64Pos
  rw [if_neg hq0, if_neg hq1, hne, hn]

/-- round64 is exact on dyadic rationals whose numerator fits in 53 bits:
these are exactly the nonnegative values already representable in binary64. -/
theorem round64_dyadic (m k : ℕ) (hm : m < 2 ^ 53) (hk : k ≤ 100) :
    round64 ((m : ℚ) / 2 ^ k) = (m : ℚ) / 2 ^ k := by
  rcases Nat.eq_zero_or_pos m with hm0 | hm1
  · subst hm0
    norm_num [round64, round64Pos]
  · have hq : (0 : ℚ) < (m : ℚ) / 2 ^ k := by positivity
    have hL1 : 2 ^ Nat.log 2 m ≤ m := Nat.pow_log_le_self 2 (by omega)
    have hL2 : m < 2 ^ (Nat.log 2 m + 1) := Nat.lt_pow_succ_log_self (by norm_num) m
    have hL52 : Nat.log 2 m ≤ 52 := by
      by_contra hcon
      push_neg at hcon
      have : (2 : ℕ) ^ 53 ≤ 2 ^ Nat.log 2 m := Nat.pow_le_pow_right (by norm_num) (by omega)
      omega
    rw [round64, if_neg (not_lt.mpr (le_of_lt hq))]
    by_cases hkL : k ≤ Nat.log 2 m
    · have h1 : (2 : ℚ) ^ (Nat.log 2 m - k) ≤ (m : ℚ) / 2 ^ k := by
        rw [le_div_iff (by positivity), ← pow_add]
        have : Nat.log 2 m - k + k = Nat.log 2 m := by omega
        rw [this]
        exact_mod_cast hL1
      have h2 : (m : ℚ) / 2 ^ k < 2 ^ (Nat.log 2 m - k + 1) := by
        rw [div_lt_iff (by positivity), ← pow_add]
        have : Nat.log 2 m - k + 1 + k = Nat.log 2 m + 1 := by omega
        rw [this]
        exact_mod_cast hL2
      have harg : (m : ℚ) / 2 ^ k * 2 ^ (52 - (Nat.log 2 m - k)) =
          (((m : ℤ) * 2 ^ (52 - Nat.log 2 m) : ℤ) : ℚ) := by
        have hee : 52 - (Nat.log 2 m - k) = 52 - Nat.log 2 m + k := by omega
        rw [hee, pow_add]
        push_cast
        field_simp
        ring
      have hn : roundHalfEvenInt ((m : ℚ) / 2 ^ k * 2 ^ (52 - (Nat.log 2 m - k))) =
          (m : ℤ) * 2 ^ (52 - Nat.log 2 m) := by
        rw [harg, roundHalfEvenInt_intCast]
      rw [round64Pos_eval_pos ((m : ℚ) / 2 ^ k) (Nat.log 2 m - k)
        ((m : ℤ) * 2 ^ (52 - Nat.log 2 m)) h1 h2 (by omega) hn]
      have hee : 52 - (Nat.log 2 m - k) = 52 - Nat.log 2 m + k := by omega
      rw [hee, pow_add]
      push_cast
      field_simp
      ring
    · push_neg at hkL
      have h1 : 1 ≤ (2 : ℚ) ^ (k - Nat.log 2 m) * ((m : ℚ) / 2 ^ k) := by
        have hrw : (2 : ℚ) ^ (k - Nat.log 2 m) * ((m : ℚ) / 2 ^ k) =
            (m : ℚ) / 2 ^ Nat.log 2 m := by
          have : k = (k - Nat.log 2 m) + Nat.log 2 m := by omega
          rw [this, pow_add]
          field_simp
          ring
        rw [hrw, le_div_iff (by positivity), one_mul]
        exact_mod_cast hL1
      have h2 : (2 : ℚ) ^ (k - Nat.log 2 m) * ((m : ℚ) / 2 ^ k) < 2 := by
        have hrw : (2 : ℚ) ^ (k - Nat.log 2 m) * ((m : ℚ) / 2 ^ k) =
            (m : ℚ) / 2 ^ Nat.log 2 m := by
          have : k = (k - Nat.log 2 m) + Nat.log 2 m := by omega
          rw [this, pow_add]
          field_simp
          ring
        rw [hrw, div_lt_iff (by positivity)]
        calc (m : ℚ) < 2 ^ (Nat.log 2 m + 1) := by exact_mod_cast hL2
        _ = 2 * 2 ^ Nat.log 2 m := by ring
      have harg : (m : ℚ) / 2 ^ k * 2 ^ (52 + (k - Nat.log 2 m)) =
          (((m : ℤ) * 2 ^ (52 - Nat.log 2 m) : ℤ) : ℚ) := by
        have hee : 52 + (k - Nat.log 2 m) = 52 - Nat.log 2 m + k := by omega
        rw [hee, pow_add]
        push_cast
        field_simp
        ring
      have hn : roundHalfEvenInt ((m : ℚ) / 2 ^ k * 2 ^ (52 + (k - Nat.log 2 m))) =
          (m : ℤ) * 2 ^ (52 - Nat.log 2 m) := by
        rw [harg, roundHalfEvenInt_intCast]
      rw [round64Pos_eval_neg ((m : ℚ) / 2 ^ k) (k - Nat.log 2 m)
        ((m : ℤ) * 2 ^ (52 - Nat.log 2 m)) hq (by
          rw [div_lt_iff (by positivity), one_mul]
          calc (m : ℚ) < 2 ^ (Nat.log 2 m + 1) := by exact_mod_cast hL2
          _ ≤ 2 ^ k := by
            have : (2 : ℕ) ^ (Nat.log 2 m + 1) ≤ 2 ^ k := Nat.pow_le_pow_right (by norm_num) (by omega)
            exact_mod_cast this)
        (by omega) h1 h2 hn]
      have hee : 52 + (k - Nat.log 2 m) = 52 - Nat.log 2 m + k := by omega
      rw [hee, pow_add]
      push_cast
      field_simp
      ring

/-- Convenience form of round64_dyadic. -/
theorem round64_eq_self (q : ℚ) (m k : ℕ) (hq : q = (m : ℚ) / 2 ^ k)
    (hm : m < 2 ^ 53) (hk : k ≤ 100) : round64 q = q := by
  rw [hq, round64_dyadic m k hm hk]

/-- A float64 addition whose exact result is representable is exact. -/
theorem fadd_exact (a b : ℚ) (m k : ℕ) (h : a + b = (m : ℚ) / 2 ^ k)
    (hm : m < 2 ^ 53) (hk : k ≤ 100) : fadd a b = a + b := by
  rw [fadd, round64_eq_self (a + b) m k h hm hk]

/-- A float64 multiplication whose exact result is representable is exact. -/
theorem fmul_exact (a b : ℚ) (m k : ℕ) (h : a * b = (m : ℚ) / 2 ^ k)
    (hm : m < 2 ^ 53) (hk : k ≤ 100) : fmul a b = a * b := by
  rw [fmul, round64_eq_self (a * b) m k h hm hk]

/-- The binary64 value of the Go literal 0.1. -/
theorem round64_lit01 : round64 (1 / 10 : ℚ) = 3602879701896397 / 2 ^ 55 := by
  rw [round64, if_neg (by norm_num)]
  have hn : roundHalfEvenInt ((1 / 10 : ℚ) * 2 ^ (52 + 4)) = 7205759403792794 := by
    have h := roundHalfEvenInt_eval_high ((1 / 10 : ℚ) * 2 ^ (52 + 4)) 7205759403792793
      (by norm_num) (by norm_num)
    simpa using h
  rw [round64Pos_eval_neg (1 / 10) 4 7205759403792794 (by norm_num) (by norm_num)
    (by norm_num) (by norm_num) (by norm_num) hn]
  norm_num

/-- The binary64 value of the Go literal 0.2. -/
theorem round64_lit02 : round64 (1 / 5 : ℚ) = 7205759403792794 / 2 ^ 55 := by
  rw [round64, if_neg (by norm_num)]
  have hn : roundHalfEvenInt ((1 / 5 : ℚ) * 2 ^ (52 + 3)) = 7205759403792794 := by
    have h := roundHalfEvenInt_eval_high ((1 / 5 : ℚ) * 2 ^ (52 + 3)) 7205759403792793
      (by norm_num) (by norm_num)
    simpa using h
  rw [round64Pos_eval_neg (1 / 5) 3 7205759403792794 (by norm_num) (by norm_num)
    (by norm_num) (by norm_num) (by norm_num) hn]
  norm_num

/-- The binary64 value of the Go literal 0.3. -/
theorem round64_lit03 : round64 (3 / 10 : ℚ) = 5404319552844595 / 2 ^ 54 := by
  rw [round64, if_neg (by norm_num)]
  have hn : roundHalfEvenInt ((3 / 10 : ℚ) * 2 ^ (52 + 2)) = 5404319552844595 := by
    exact roundHalfEvenInt_eval_low ((3 / 10 : ℚ) * 2 ^ (52 + 2)) 5404319552844595
      (by norm_num) (by norm_num)
  rw [round64Pos_eval_neg (3 / 10) 2 5404319552844595 (by norm_num) (by norm_num)
    (by norm_num) (by norm_num) (by norm_num) hn]
  norm_num

/-- The binary64 value of the Go literal 0.9. -/
theorem round64_lit09 : round64 (9 / 10 : ℚ) = 8106479329266893 / 2 ^ 53 := by
  rw [round64, if_neg (by norm_num)]
  have hn : roundHalfEvenInt ((9 / 10 : ℚ) * 2 ^ (52 + 1)) = 8106479329266893 := by
    have h := roundHalfEvenInt_eval_high ((9 / 10 : ℚ) * 2 ^ (52 + 1)) 8106479329266892
      (by norm_num) (by norm_num)
    simpa using h
  rw [round64Pos_eval_neg (9 / 10) 1 8106479329266893 (by norm_num) (by norm_num)
    (by norm_num) (by norm_num) (by norm_num) hn]
  norm_num

/-- The binary64 value of the Go literal 1.1. -/
theorem round64_lit11 : round64 (11 / 10 : ℚ) = 4953959590107546 / 2 ^ 52 := by
  rw [round64, if_neg (by norm_num)]
  have hn : roundHalfEvenInt ((11 / 10 : ℚ) * 2 ^ (52 - 0)) = 4953959590107546 := by
    have h := roundHalfEvenInt_eval_high ((11 / 10 : ℚ) * 2 ^ (52 - 0)) 4953959590107545
      (by norm_num) (by norm_num)
    simpa using h
  rw [round64Pos_eval_pos (11 / 10) 0 4953959590107546 (by norm_num) (by norm_num)
    (by norm_num) hn]
  norm_num

/-- 0.2 + 0.1 in float64: the exact sum is a representability tie, broken
upward to the even significand, which overshoots the binary64 value of 0.3. -/
theorem fadd_d02_d01 :
    fadd (7205759403792794 / 2 ^ 55) (3602879701896397 / 2 ^ 55)
      = 5404319552844596 / 2 ^ 54 := by
  rw [fadd]
  have hsum : (7205759403792794 / 2 ^ 55 : ℚ) + 3602879701896397 / 2 ^ 55
      = 10808639105689191 / 2 ^ 55 := by norm_num
  rw [hsum, round64, if_neg (by norm_num)]
  have hn : roundHalfEvenInt ((10808639105689191 / 2 ^ 55 : ℚ) * 2 ^ (52 + 2))
      = 5404319552844596 := by
    have h := roundHalfEvenInt_eval_tie_odd ((10808639105689191 / 2 ^ 55 : ℚ) * 2 ^ (52 + 2))
      5404319552844595 (by norm_num) (by norm_num)
    simpa using h
  rw [round64Pos_eval_neg (10808639105689191 / 2 ^ 55) 2 5404319552844596 (by norm_num)
    (by norm_num) (by norm_num) (by norm_num) (by norm_num) hn]
  norm_num

/-- 0.9 + 0.1 in float64 is exactly 1. -/
theorem fadd_d09_d01 :
    fadd (8106479329266893 / 2 ^ 53) (3602879701896397 / 2 ^ 55) = 1 := by
  rw [fadd]
  have hsum : (8106479329266893 / 2 ^ 53 : ℚ) + 3602879701896397 / 2 ^ 55
      = 36028797018963969 / 2 ^ 55 := by norm_num
  rw [hsum, round64, if_neg (by norm_num)]
  have hn : roundHalfEvenInt ((36028797018963969 / 2 ^ 55 : ℚ) * 2 ^ (52 - 0))
      = 4503599627370496 := by
    exact roundHalfEvenInt_eval_low ((36028797018963969 / 2 ^ 55 : ℚ) * 2 ^ (52 - 0))
      4503599627370496 (by norm_num) (by norm_num)
  rw [round64Pos_eval_pos (36028797018963969 / 2 ^ 55) 0 4503599627370496 (by norm_num)
    (by norm_num) (by norm_num) hn]
  norm_num

/-- 1 + 0.1 in float64 is exactly the binary64 value of 1.1. -/
theorem fadd_one_d01 :
    fadd 1 (3602879701896397 / 2 ^ 55) = 4953959590107546 / 2 ^ 52 := by
  rw [fadd]
  have hsum : (1 : ℚ) + 3602879701896397 / 2 ^ 55 = 39631676720860365 / 2 ^ 55 := by
    norm_num
  rw [hsum, round64, if_neg (by norm_num)]
  have hn : roundHalfEvenInt ((39631676720860365 / 2 ^ 55 : ℚ) * 2 ^ (52 - 0))
      = 4953959590107546 := by
    have h := roundHalfEvenInt_eval_high ((39631676720860365 / 2 ^ 55 : ℚ) * 2 ^ (52 - 0))
      4953959590107545 (by norm_num) (by norm_num)
    simpa using h
  rw [round64Pos_eval_pos (39631676720860365 / 2 ^ 55) 0 4953959590107546 (by norm_num)
    (by norm_num) (by norm_num) hn]
  norm_num

/-- 1.1 + 0.1 in float64 strictly exceeds the binary64 value of 1.1. -/
theorem fadd_d11_d01 :
    fadd (4953959590107546 / 2 ^ 52) (3602879701896397 / 2 ^ 55)
      = 5404319552844596 / 2 ^ 52 := by
  rw [fadd]
  have hsum : (4953959590107546 / 2 ^ 52 : ℚ) + 3602879701896397 / 2 ^ 55
      = 43234556422756765 / 2 ^ 55 := by norm_num
  rw [hsum, round64, if_neg (by norm_num)]
  have hn : roundHalfEvenInt ((43234556422756765 / 2 ^ 55 : ℚ) * 2 ^ (52 - 0))
      = 5404319552844596 := by
    have h := roundHalfEvenInt_eval_high ((43234556422756765 / 2 ^ 55 : ℚ) * 2 ^ (52 - 0))
      5404319552844595 (by norm_num) (by norm_num)
    simpa using h
  rw [round64Pos_eval_pos (43234556422756765 / 2 ^ 55) 0 5404319552844596 (by norm_num)
    (by norm_num) (by norm_num) hn]
  norm_num

end FloatEval

/-! ### Data model of pkg/image (compare code) -/

/-- image.Point: X and Y are Go ints. -/
structure Pt where
  x : ℤ
  y : ℤ
deriving DecidableEq

/-- image.Rectangle with Min and Max corners. -/
structure Rect where
  min : Pt
  max : Pt
deriving DecidableEq

/-- The CompareMethod enumeration. -/
inductive CompareMethod
  | templateMatching
  | featureMatching
  | histogramComparison
  | structuralSimilarity
  | multiScaleTemplate
deriving DecidableEq

/-- MatchResult: similarity, location, confidence, method, scale and
bounding box of a match. -/
structure MatchResult where
  similarity : ℚ
  location : Pt
  confidence : ℚ
  method : CompareMethod
  scale : ℚ
  boundingBox : Rect
deriving DecidableEq

/-- MultiScaleConfig: scale range, step, similarity threshold and result cap. -/
structure MultiScaleConfig where
  minScale : ℚ
  maxScale : ℚ
  scaleStep : ℚ
  threshold : ℚ
  maxResults : ℤ

/-- DefaultMultiScaleConfig: the Go decimal literals denote their binary64
values. -/
def DefaultMultiScaleConfig : MultiScaleConfig :=
  { minScale := 1/2, maxScale := 2, scaleStep := round64 (1/10),
    threshold := round64 (7/10), maxResults := 5 }

/-- Go int(f) conversion of a float64: truncation toward zero. -/
def truncToInt (q : ℚ) : ℤ := if 0 ≤ q then ⌊q⌋ else ⌈q⌉

/-- templateSize computed inside the scale loop:
X = int(float64(template.Cols()) * scale) and likewise Y, where the
multiplication is a float64 multiplication. -/
def scaledSize (tplW tplH : ℤ) (s : ℚ) : ℤ × ℤ :=
  (truncToInt (fmul (tplW : ℚ) s), truncToInt (fmul (tplH : ℚ) s))

/-- The guard that makes the loop skip a scale:
templateSize.X <= 0 or templateSize.Y <= 0 or templateSize.X >= source.Cols()
or templateSize.Y >= source.Rows(). -/
def sizeSkipped (srcW srcH : ℤ) (sz : ℤ × ℤ) : Prop :=
  sz.1 ≤ 0 ∨ sz.2 ≤ 0 ∨ srcW ≤ sz.1 ∨ srcH ≤ sz.2

instance (srcW srcH : ℤ) (sz : ℤ × ℤ) : Decidable (sizeSkipped srcW srcH sz) := by
  unfold sizeSkipped
  infer_instance

/-- Oracle for the external correlation primitive: the scaled template size
determines the resized template, and MatchTemplate plus MinMaxLoc then
determine (maxVal, maxLoc). -/
abbrev Corr := ℤ × ℤ → ℚ × Pt

/-- The MatchResult built when a scale is accepted: Similarity and Confidence
hold the score, Scale the current scale, and BoundingBox spans from the match
location by the scaled template size. -/
def mkScaleResult (sim : ℚ) (loc : Pt) (s : ℚ) (sz : ℤ × ℤ) : MatchResult :=
  { similarity := sim, location := loc, confidence := sim,
    method := .multiScaleTemplate, scale := s,
    boundingBox := ⟨loc, ⟨loc.x + sz.1, loc.y + sz.2⟩⟩ }

/-- The running best as a similarity: the Go variable bestSimilarity starts at
0.0 and always equals bestResult.Similarity once bestResult is non-nil. -/
def optSim : Option MatchResult → ℚ
  | none => 0
  | some r => r.similarity

/-- One iteration of the best-match scale loop: skip invalid sizes, otherwise
replace the running best when similarity > bestSimilarity and
similarity >= config.Threshold. -/
def msBestStep (srcW srcH tplW tplH : ℤ) (corr : Corr) (cfg : MultiScaleConfig)
    (best : Option MatchResult) (s : ℚ) : Option MatchResult :=
  let sz := scaledSize tplW tplH s
  if sizeSkipped srcW srcH sz then best
  else
    if optSim best < (corr sz).1 ∧ cfg.threshold ≤ (corr sz).1 then
      some (mkScaleResult (corr sz).1 (corr sz).2 s sz)
    else best

/-- The scale values visited by the loop
for scale := minScale; scale <= maxScale; scale += scaleStep
under float64 semantics; the fuel bounds the iteration count. -/
def scaleSeq (maxS step : ℚ) : ℚ → ℕ → List ℚ
  | _, 0 => []
  | s, fuel + 1 => if s ≤ maxS then s :: scaleSeq maxS step (fadd s step) fuel else []

/-- The no-match MatchResult: similarity 0, scale 1.0, empty bounding box. -/
def noMatchResult : MatchResult :=
  { similarity := 0, location := ⟨0, 0⟩, confidence := 0,
    method := .multiScaleTemplate, scale := 1, boundingBox := ⟨⟨0, 0⟩, ⟨0, 0⟩⟩ }

/-- multiScaleTemplateMatching: fold the per-scale step over the visited
scales; a nil best yields the no-match result.  The Go function returns
(result, error) and has no error-returning path, hence always Except.ok. -/
def multiScaleTemplateMatching (srcW srcH tplW tplH : ℤ) (corr : Corr)
    (cfg : MultiScaleConfig) (fuel : ℕ) : Except String MatchResult :=
  .ok ((List.foldl (msBestStep srcW srcH tplW tplH corr cfg) none
    (scaleSeq cfg.maxScale cfg.scaleStep cfg.minScale fuel)).getD noMatchResult)

/-- The append performed by MultiScaleTemplateMatchingAll at one non-skipped
scale: the candidate joins the list when similarity >= config.Threshold. -/
def msAllAppend (tplW tplH : ℤ) (corr : Corr) (cfg : MultiScaleConfig)
    (acc : List MatchResult) (s : ℚ) : List MatchResult :=
  if cfg.threshold ≤ (corr (scaledSize tplW tplH s)).1 then
    acc ++ [mkScaleResult (corr (scaledSize tplW tplH s)).1
      (corr (scaledSize tplW tplH s)).2 s (scaledSize tplW tplH s)]
  else acc

/-- The accumulation loop of MultiScaleTemplateMatchingAll: on each
non-skipped scale, append the candidate when similarity >= threshold, then
break as soon as len(results) >= config.MaxResults; skipped scales bypass the
break check (Go continue). -/
def msAllLoop (srcW srcH tplW tplH : ℤ) (corr : Corr) (cfg : MultiScaleConfig) :
    ℚ → ℕ → List MatchResult → List MatchResult
  | _, 0, acc => acc
  | s, fuel + 1, acc =>
    if s ≤ cfg.maxScale then
      if sizeSkipped srcW srcH (scaledSize tplW tplH s) then
        msAllLoop srcW srcH tplW tplH corr cfg (fadd s cfg.scaleStep) fuel acc
      else
        if cfg.maxResults ≤ ((msAllAppend tplW tplH corr cfg acc s).length : ℤ) then
          msAllAppend tplW tplH corr cfg acc s
        else
          msAllLoop srcW srcH tplW tplH corr cfg (fadd s cfg.scaleStep) fuel
            (msAllAppend tplW tplH corr cfg acc s)
    else acc

/-- The inner j-loop of the final sort: scan the elements after position i,
swapping whenever the element at position i is strictly smaller.  The first
component is the value left at position i after the scan, the second the
remaining positions in order. -/
def selectPass : MatchResult → List MatchResult → MatchResult × List MatchResult
  | x, [] => (x, [])
  | x, y :: ys =>
    if x.similarity < y.similarity then
      ((selectPass y ys).1, x :: (selectPass y ys).2)
    else
      ((selectPass x ys).1, y :: (selectPass x ys).2)

/-- The outer i-loop of the final sort; the fuel is the list length. -/
def selSortFuel : ℕ → List MatchResult → List MatchResult
  | 0, l => l
  | _ + 1, [] => []
  | fuel + 1, x :: xs => (selectPass x xs).1 :: selSortFuel fuel (selectPass x xs).2

/-- The descending-by-Similarity sort performed by the nested swap loops at
the end of MultiScaleTemplateMatchingAll. -/
def sortBySimilarity (l : List MatchResult) : List MatchResult :=
  selSortFuel l.length l

/-- MultiScaleTemplateMatchingAll: accumulate, then sort; always nil error. -/
def MultiScaleTemplateMatchingAll (srcW srcH tplW tplH : ℤ) (corr : Corr)
    (cfg : MultiScaleConfig) (fuel : ℕ) : Except String (List MatchResult) :=
  .ok (sortBySimilarity (msAllLoop srcW srcH tplW tplH corr cfg cfg.minScale fuel []))

/-- Every above-threshold candidate over the entire scale range in iteration
order, with no result-count cutoff; used to state reference semantics. -/
def candSeq (srcW srcH tplW tplH : ℤ) (corr : Corr) (cfg : MultiScaleConfig) :
    ℚ → ℕ → List MatchResult
  | _, 0 => []
  | s, fuel + 1 =>
    if s ≤ cfg.maxScale then
      (if sizeSkipped srcW srcH (scaledSize tplW tplH s) then []
       else if cfg.threshold ≤ (corr (scaledSize tplW tplH s)).1 then
         [mkScaleResult (corr (scaledSize tplW tplH s)).1
           (corr (scaledSize tplW tplH s)).2 s (scaledSize tplW tplH s)]
       else [])
      ++ candSeq srcW srcH tplW tplH corr cfg (fadd s cfg.scaleStep) fuel
    else []

/-- Reference semantics stated by the spec for the multi-result search:
collect every above-threshold candidate over the entire scale range, sort
descending by similarity, and only then truncate to maxResults entries. -/
def specMatchAllScales (srcW srcH tplW tplH : ℤ) (corr : Corr)
    (cfg : MultiScaleConfig) (fuel : ℕ) : List MatchResult :=
  (sortBySimilarity (candSeq srcW srcH tplW tplH corr cfg cfg.minScale fuel)).take
    cfg.maxResults.toNat

/-! ### Coordinate mapping, error wrapping, find-and-click -/

/-- WindowInfo as produced by the capture package. -/
structure WindowInfo where
  handle : ℤ
  title : String
  pid : ℤ
  rect : Rect

/-- ToScreenCoordinates: screen = windowRect.Min + window-relative location. -/
def ToScreenCoordinates (m : MatchResult) (w : WindowInfo) : Pt :=
  ⟨w.rect.min.x + m.location.x, w.rect.min.y + m.location.y⟩

/-- WrapError from pkg/utils: returns nil when the wrapped error is nil,
otherwise prefixes the message. -/
def WrapError : Option String → String → Option String
  | none, _ => none
  | some e, message => some (message ++ ": " ++ e)

/-- FindAndClick: compare, bail out on a comparison error, return without
clicking when Similarity == 0, otherwise click and report.  The comparison
outcome and the click outcome are the external inputs; the Boolean records
whether a click was performed. -/
def FindAndClick (cmp : Except String MatchResult) (clickErr : Option String) :
    Option MatchResult × Option String × Bool :=
  match cmp with
  | .error e => (none, WrapError (some e) "图像对比失败", false)
  | .ok r =>
    if r.similarity = 0 then (some r, WrapError none "未找到匹配的图像", false)
    else
      match clickErr with
      | some e => (some r, WrapError (some e) "点击失败", true)
      | none => (some r, none, true)

/-! ### Windows capture fallback (windows capture file) -/

/-- Events observable during one capture call. -/
inductive CapEvent
  | printWindowCall
  | warnFallback
  | bitBltCall
deriving DecidableEq

/-- Success or failure of each WinAPI call made during one capture
invocation (a call returns 0 on failure). -/
structure WinEnv where
  getDCScreen : Bool
  createDCScreen : Bool
  createBitmapScreen : Bool
  selectObjectPW : Bool
  printWindow : Bool
  getDCWindow : Bool
  createDCWindow : Bool
  createBitmapWindow : Bool
  selectObjectBB : Bool
  bitBlt : Bool
  getDCScreenB : Bool
  getDIBits : Bool

/-- The error value produced by a Go syscall Call: always non-nil. -/
def sysErr : Option String := some "errno"

/-- bitmapToImage: converts the GDI bitmap, failing on GetDC or GetDIBits.
The GetDIBits failure is reported through WrapError with a nil cause. -/
def bitmapToImage (env : WinEnv) : Option Unit × Option String :=
  if env.getDCScreenB = false then (none, WrapError sysErr "GetDC failed")
  else if env.getDIBits = false then (none, WrapError none "GetDIBits failed")
  else (some (), none)

/-- captureWindowWithBitBlt: visible-only capture.  Returns the trace of
observable calls with the Go (image, error) pair.  The BitBlt and
SelectObject failures are reported through WrapError with a nil cause. -/
def captureWindowWithBitBlt (env : WinEnv) :
    List CapEvent × Option Unit × Option String :=
  if env.getDCWindow = false then ([], none, WrapError sysErr "GetDC failed")
  else if env.createDCWindow = false then ([], none, WrapError sysErr "CreateCompatibleDC failed")
  else if env.createBitmapWindow = false then
    ([], none, WrapError sysErr "CreateCompatibleBitmap failed")
  else if env.selectObjectBB = false then ([], none, WrapError none "SelectObject failed")
  else if env.bitBlt = false then ([.bitBltCall], none, WrapError none "BitBlt failed")
  else ([.bitBltCall], bitmapToImage env)

/-- captureWindowWithPrintWindow: occlusion-tolerant capture.  When the
PrintWindow call fails, log a warning and fall back to the BitBlt capture;
there is no other retry. -/
def captureWindowWithPrintWindow (env : WinEnv) :
    List CapEvent × Option Unit × Option String :=
  if env.getDCScreen = false then ([], none, WrapError sysErr "GetDC failed")
  else if env.createDCScreen = false then ([], none, WrapError sysErr "CreateCompatibleDC failed")
  else if env.createBitmapScreen = false then
    ([], none, WrapError sysErr "CreateCompatibleBitmap failed")
  else if env.selectObjectPW = false then ([], none, WrapError none "SelectObject failed")
  else if env.printWindow = false then
    ([.printWindowCall, .warnFallback] ++ (captureWindowWithBitBlt env).1,
      (captureWindowWithBitBlt env).2)
  else ([.printWindowCall], bitmapToImage env)


/-! ### Invariants of the best-match fold -/

section BestFold

variable (srcW srcH tplW tplH : ℤ) (corr : Corr) (cfg : MultiScaleConfig)

theorem msBestStep_mono (b : Option MatchResult) (s : ℚ) :
    optSim b ≤ optSim (msBestStep srcW srcH tplW tplH corr cfg b s) := by
  unfold msBestStep
  by_cases hskip : sizeSkipped srcW srcH (scaledSize tplW tplH s)
  · rw [if_pos hskip]
  · rw [if_neg hskip]
    by_cases hacc : optSim b < (corr (scaledSize tplW tplH s)).1 ∧
        cfg.threshold ≤ (corr (scaledSize tplW tplH s)).1
    · rw [if_pos hacc]
      exact le_of_lt hacc.1
    · rw [if_neg hacc]

theorem msBestFold_mono (l : List ℚ) (b : Option MatchResult) :
    optSim b ≤ optSim (List.foldl (msBestStep srcW srcH tplW tplH corr cfg) b l) := by
  induction l generalizing b with
  | nil => exact le_rfl
  | cons a l ih =>
    rw [List.foldl_cons]
    exact le_trans (msBestStep_mono srcW srcH tplW tplH corr cfg b a) (ih _)

theorem msBestFold_sound (l : List ℚ) (b : Option MatchResult) :
    List.foldl (msBestStep srcW srcH tplW tplH corr cfg) b l = b ∨
    ∃ s ∈ l, ¬ sizeSkipped srcW srcH (scaledSize tplW tplH s) ∧
      cfg.threshold ≤ (corr (scaledSize tplW tplH s)).1 ∧
      optSim b < (corr (scaledSize tplW tplH s)).1 ∧
      List.foldl (msBestStep srcW srcH tplW tplH corr cfg) b l
        = some (mkScaleResult (corr (scaledSize tplW tplH s)).1
            (corr (scaledSize tplW tplH s)).2 s (scaledSize tplW tplH s)) := by
  induction l generalizing b with
  | nil => exact Or.inl rfl
  | cons a l ih =>
    rw [List.foldl_cons]
    by_cases hskip : sizeSkipped srcW srcH (scaledSize tplW tplH a)
    · have hstep : msBestStep srcW srcH tplW tplH corr cfg b a = b := by
        unfold msBestStep
        rw [if_pos hskip]
      rw [hstep]
      rcases ih b with h | ⟨s, hmem, h1, h2, h3, h4⟩
      · exact Or.inl h
      · exact Or.inr ⟨s, List.mem_cons_of_mem _ hmem, h1, h2, h3, h4⟩
    · by_cases hacc : optSim b < (corr (scaledSize tplW tplH a)).1 ∧
          cfg.threshold ≤ (corr (scaledSize tplW tplH a)).1
      · have hstep : msBestStep srcW srcH tplW tplH corr cfg b a
            = some (mkScaleResult (corr (scaledSize tplW tplH a)).1
                (corr (scaledSize tplW tplH a)).2 a (scaledSize tplW tplH a)) := by
          unfold msBestStep
          rw [if_neg hskip, if_pos hacc]
        rw [hstep]
        rcases ih (some (mkScaleResult (corr (scaledSize tplW tplH a)).1
            (corr (scaledSize tplW tplH a)).2 a (scaledSize tplW tplH a))) with h | h
        · rw [h]
          exact Or.inr ⟨a, List.mem_cons_self a l, hskip, hacc.2, hacc.1, rfl⟩
        · obtain ⟨s, hmem, h1, h2, h3, h4⟩ := h
          refine Or.inr ⟨s, List.mem_cons_of_mem _ hmem, h1, h2, ?_, h4⟩
          have : optSim b < optSim (some (mkScaleResult (corr (scaledSize tplW tplH a)).1
              (corr (scaledSize tplW tplH a)).2 a (scaledSize tplW tplH a))) := by
            simpa [optSim, mkScaleResult] using hacc.1
          exact lt_trans this h3
      · have hstep : msBestStep srcW srcH tplW tplH corr cfg b a = b := by
          unfold msBestStep
          rw [if_neg hskip, if_neg hacc]
        rw [hstep]
        rcases ih b with h | ⟨s, hmem, h1, h2, h3, h4⟩
        · exact Or.inl h
        · exact Or.inr ⟨s, List.mem_cons_of_mem _ hmem, h1, h2, h3, h4⟩

theorem msBestFold_max (l : List ℚ) (b : Option MatchResult) (s : ℚ)
    (hs : s ∈ l) (hskip : ¬ sizeSkipped srcW srcH (scaledSize tplW tplH s))
    (hthr : cfg.threshold ≤ (corr (scaledSize tplW tplH s)).1) :
    (corr (scaledSize tplW tplH s)).1
      ≤ optSim (List.foldl (msBestStep srcW srcH tplW tplH corr cfg) b l) := by
  induction l generalizing b with
  | nil => cases hs
  | cons a l ih =>
    rw [List.foldl_cons]
    rcases List.mem_cons.mp hs with heq | hmem
    · subst heq
      have hge : (corr (scaledSize tplW tplH s)).1
          ≤ optSim (msBestStep srcW srcH tplW tplH corr cfg b s) := by
        unfold msBestStep
        rw [if_neg hskip]
        by_cases hlt : optSim b < (corr (scaledSize tplW tplH s)).1
        · rw [if_pos ⟨hlt, hthr⟩]
          simp [optSim, mkScaleResult]
        · push_neg at hlt
          have : ¬ (optSim b < (corr (scaledSize tplW tplH s)).1 ∧
              cfg.threshold ≤ (corr (scaledSize tplW tplH s)).1) := by
            intro hc
            exact absurd hc.1 (not_lt.mpr hlt)
          rw [if_neg this]
          exact hlt
      exact le_trans hge (msBestFold_mono srcW srcH tplW tplH corr cfg l _)
    · exact ih _ hmem

end BestFold

/-! ### Invariants of the multi-result accumulation loop -/

section AllLoop

variable (srcW srcH tplW tplH : ℤ) (corr : Corr) (cfg : MultiScaleConfig)

theorem msAllAppend_threshold (acc : List MatchResult) (s : ℚ)
    (hacc : ∀ r ∈ acc, cfg.threshold ≤ r.similarity) :
    ∀ r ∈ msAllAppend tplW tplH corr cfg acc s, cfg.threshold ≤ r.similarity := by
  intro r hr
  unfold msAllAppend at hr
  by_cases h : cfg.threshold ≤ (corr (scaledSize tplW tplH s)).1
  · rw [if_pos h] at hr
    rcases List.mem_append.mp hr with h1 | h1
    · exact hacc r h1
    · have hre := List.mem_singleton.mp h1
      subst hre
      simpa [mkScaleResult] using h
  · rw [if_neg h] at hr
    exact hacc r hr

theorem msAllLoop_threshold : ∀ (fuel : ℕ) (s : ℚ) (acc : List MatchResult),
    (∀ r ∈ acc, cfg.threshold ≤ r.similarity) →
    ∀ r ∈ msAllLoop srcW srcH tplW tplH corr cfg s fuel acc,
      cfg.threshold ≤ r.similarity := by
  intro fuel
  induction fuel with
  | zero =>
    intro s acc hacc r hr
    simp only [msAllLoop] at hr
    exact hacc r hr
  | succ n ih =>
    intro s acc hacc r hr
    simp only [msAllLoop] at hr
    by_cases h1 : s ≤ cfg.maxScale
    · rw [if_pos h1] at hr
      by_cases h2 : sizeSkipped srcW srcH (scaledSize tplW tplH s)
      · rw [if_pos h2] at hr
        exact ih _ _ hacc r hr
      · rw [if_neg h2] at hr
        by_cases h3 : cfg.maxResults ≤ ((msAllAppend tplW tplH corr cfg acc s).length : ℤ)
        · rw [if_pos h3] at hr
          exact msAllAppend_threshold tplW tplH corr cfg acc s hacc r hr
        · rw [if_neg h3] at hr
          exact ih _ _ (msAllAppend_threshold tplW tplH corr cfg acc s hacc) r hr
    · rw [if_neg h1] at hr
      exact hacc r hr

theorem msAllLoop_take : ∀ (fuel : ℕ) (s : ℚ) (acc : List MatchResult),
    (acc.length : ℤ) < cfg.maxResults →
    msAllLoop srcW srcH tplW tplH corr cfg s fuel acc
      = acc ++ (candSeq srcW srcH tplW tplH corr cfg s fuel).take
          (cfg.maxResults - (acc.length : ℤ)).toNat := by
  intro fuel
  induction fuel with
  | zero =>
    intro s acc hlen
    simp [msAllLoop, candSeq]
  | succ n ih =>
    intro s acc hlen
    simp only [msAllLoop, candSeq]
    by_cases h1 : s ≤ cfg.maxScale
    · rw [if_pos h1, if_pos h1]
      by_cases h2 : sizeSkipped srcW srcH (scaledSize tplW tplH s)
      · rw [if_pos h2, if_pos h2, List.nil_append]
        exact ih _ acc hlen
      · rw [if_neg h2, if_neg h2]
        by_cases hq : cfg.threshold ≤ (corr (scaledSize tplW tplH s)).1
        · rw [if_pos hq]
          have happ : msAllAppend tplW tplH corr cfg acc s
              = acc ++ [mkScaleResult (corr (scaledSize tplW tplH s)).1
                  (corr (scaledSize tplW tplH s)).2 s (scaledSize tplW tplH s)] := by
            unfold msAllAppend
            rw [if_pos hq]
          have hlapp : ((msAllAppend tplW tplH corr cfg acc s).length : ℤ)
              = (acc.length : ℤ) + 1 := by
            rw [happ]
            simp
          by_cases h3 : cfg.maxResults ≤ ((msAllAppend tplW tplH corr cfg acc s).length : ℤ)
          · rw [if_pos h3, happ]
            have hone : (cfg.maxResults - (acc.length : ℤ)).toNat = 1 := by
              rw [hlapp] at h3
              omega
            rw [hone]
            simp
          · rw [if_neg h3]
            have hlt : ((msAllAppend tplW tplH corr cfg acc s).length : ℤ)
                < cfg.maxResults := by omega
            rw [ih _ _ hlt, happ]
            have hlen3 : (((acc ++ [mkScaleResult (corr (scaledSize tplW tplH s)).1
                (corr (scaledSize tplW tplH s)).2 s (scaledSize tplW tplH s)]).length : ℕ) : ℤ)
                = (acc.length : ℤ) + 1 := by simp
            rw [hlen3]
            obtain ⟨k, hk⟩ : ∃ k, (cfg.maxResults - (acc.length : ℤ)).toNat = k + 1 :=
              ⟨(cfg.maxResults - (acc.length : ℤ) - 1).toNat, by omega⟩
            have hk2 : (cfg.maxResults - ((acc.length : ℤ) + 1)).toNat = k := by omega
            rw [hk, hk2, List.singleton_append, List.take_succ_cons, List.append_assoc,
              List.singleton_append]
        · rw [if_neg hq]
          have happ : msAllAppend tplW tplH corr cfg acc s = acc := by
            unfold msAllAppend
            rw [if_neg hq]
          have h3 : ¬ (cfg.maxResults ≤ ((msAllAppend tplW tplH corr cfg acc s).length : ℤ)) := by
            rw [happ]
            omega
          rw [if_neg h3, happ, List.nil_append]
          exact ih _ acc hlen
    · rw [if_neg h1, if_neg h1]
      simp

end AllLoop

/-! ### The final sort: nested strict-swap loops are a selection sort -/

theorem selectPass_length : ∀ (l : List MatchResult) (x : MatchResult),
    (selectPass x l).2.length = l.length := by
  intro l
  induction l with
  | nil =>
    intro x
    simp [selectPass]
  | cons y ys ih =>
    intro x
    unfold selectPass
    by_cases h : x.similarity < y.similarity
    · rw [if_pos h]
      simp [ih]
    · rw [if_neg h]
      simp [ih]

theorem selectPass_perm : ∀ (l : List MatchResult) (x : MatchResult),
    List.Perm ((selectPass x l).1 :: (selectPass x l).2) (x :: l) := by
  intro l
  induction l with
  | nil =>
    intro x
    simp [selectPass]
  | cons y ys ih =>
    intro x
    unfold selectPass
    by_cases h : x.similarity < y.similarity
    · rw [if_pos h]
      refine List.Perm.trans (List.Perm.swap x (selectPass y ys).1 (selectPass y ys).2) ?_
      exact List.Perm.cons x (ih y)
    · rw [if_neg h]
      refine List.Perm.trans (List.Perm.swap y (selectPass x ys).1 (selectPass x ys).2) ?_
      refine List.Perm.trans (List.Perm.cons y (ih x)) ?_
      exact List.Perm.swap x y ys

theorem selectPass_max : ∀ (l : List MatchResult) (x : MatchResult),
    x.similarity ≤ (selectPass x l).1.similarity ∧
    ∀ r ∈ (selectPass x l).2, r.similarity ≤ (selectPass x l).1.similarity := by
  intro l
  induction l with
  | nil =>
    intro x
    constructor
    · exact le_rfl
    · intro r hr
      simp [selectPass] at hr
  | cons y ys ih =>
    intro x
    unfold selectPass
    by_cases h : x.similarity < y.similarity
    · rw [if_pos h]
      refine ⟨le_of_lt (lt_of_lt_of_le h (ih y).1), ?_⟩
      intro r hr
      rcases List.mem_cons.mp hr with hre | hrm
      · subst hre
        exact le_of_lt (lt_of_lt_of_le h (ih y).1)
      · exact (ih y).2 r hrm
    · rw [if_neg h]
      push_neg at h
      refine ⟨(ih x).1, ?_⟩
      intro r hr
      rcases List.mem_cons.mp hr with hre | hrm
      · subst hre
        exact le_trans h (ih x).1
      · exact (ih x).2 r hrm

theorem selSortFuel_perm : ∀ (fuel : ℕ) (l : List MatchResult),
    l.length ≤ fuel → List.Perm (selSortFuel fuel l) l := by
  intro fuel
  induction fuel with
  | zero =>
    intro l _
    exact List.Perm.refl _
  | succ n ih =>
    intro l hl
    cases l with
    | nil => exact List.Perm.refl _
    | cons x xs =>
      have hlen : (selectPass x xs).2.length ≤ n := by
        rw [selectPass_length]
        simpa using hl
      refine List.Perm.trans ?_ (selectPass_perm xs x)
      exact List.Perm.cons _ (ih _ hlen)

theorem selSortFuel_sorted : ∀ (fuel : ℕ) (l : List MatchResult),
    l.length ≤ fuel →
    (selSortFuel fuel l).Pairwise (fun a b => b.similarity ≤ a.similarity) := by
  intro fuel
  induction fuel with
  | zero =>
    intro l hl
    have : l = [] := List.eq_nil_of_length_eq_zero (by omega)
    subst this
    simp [selSortFuel]
  | succ n ih =>
    intro l hl
    cases l with
    | nil => simp [selSortFuel]
    | cons x xs =>
      have hlen : (selectPass x xs).2.length ≤ n := by
        rw [selectPass_length]
        simpa using hl
      have hsorted := ih _ hlen
      have hperm := selSortFuel_perm n (selectPass x xs).2 hlen
      refine List.pairwise_cons.mpr ⟨?_, hsorted⟩
      intro r hr
      exact (selectPass_max xs x).2 r (hperm.mem_iff.mp hr)

theorem sortBySimilarity_perm (l : List MatchResult) :
    List.Perm (sortBySimilarity l) l :=
  selSortFuel_perm l.length l le_rfl

theorem sortBySimilarity_sorted (l : List MatchResult) :
    (sortBySimilarity l).Pairwise (fun a b => b.similarity ≤ a.similarity) :=
  selSortFuel_sorted l.length l le_rfl

/-! ### Concrete evaluations used by the witnesses and counterexamples -/

theorem truncToInt_eval (q : ℚ) (n : ℤ) (h0 : 0 ≤ q) (h1 : (n : ℚ) ≤ q)
    (h2 : q < n + 1) : truncToInt q = n := by
  unfold truncToInt
  rw [if_pos h0, floorRat_eval q n h1 h2]

theorem scaleSeq_unfold (maxS step s : ℚ) (fuel : ℕ) (h : fuel ≠ 0) :
    scaleSeq maxS step s fuel
      = if s ≤ maxS then s :: scaleSeq maxS step (fadd s step) (fuel - 1) else [] := by
  cases fuel with
  | zero => exact absurd rfl h
  | succ n => rfl

theorem scaleSeq_empty (maxS step s : ℚ) (fuel : ℕ) (h : ¬ s ≤ maxS) :
    scaleSeq maxS step s fuel = [] := by
  cases fuel with
  | zero => rfl
  | succ n =>
    simp only [scaleSeq]
    rw [if_neg h]

theorem fadd_1_1 : fadd 1 1 = 2 := by
  rw [fadd_exact 1 1 2 0 (by norm_num) (by norm_num) (by norm_num)]
  norm_num

theorem fadd_2_1 : fadd 2 1 = 3 := by
  rw [fadd_exact 2 1 3 0 (by norm_num) (by norm_num) (by norm_num)]
  norm_num

theorem fadd_3_1 : fadd 3 1 = 4 := by
  rw [fadd_exact 3 1 4 0 (by norm_num) (by norm_num) (by norm_num)]
  norm_num

theorem fadd_half_one : fadd (1/2) 1 = 3/2 := by
  rw [fadd_exact (1/2) 1 3 1 (by norm_num) (by norm_num) (by norm_num)]
  norm_num

theorem scaledSize_10_1 : scaledSize 10 10 1 = (10, 10) := by
  unfold scaledSize
  have hf : fmul ((10 : ℤ) : ℚ) 1 = 10 := by
    rw [fmul_exact ((10 : ℤ) : ℚ) 1 10 0 (by push_cast; norm_num) (by norm_num) (by norm_num)]
    push_cast
    norm_num
  rw [hf, truncToInt_eval 10 10 (by norm_num) (by norm_num) (by norm_num)]

theorem scaledSize_10_2 : scaledSize 10 10 2 = (20, 20) := by
  unfold scaledSize
  have hf : fmul ((10 : ℤ) : ℚ) 2 = 20 := by
    rw [fmul_exact ((10 : ℤ) : ℚ) 2 20 0 (by push_cast; norm_num) (by norm_num) (by norm_num)]
    push_cast
    norm_num
  rw [hf, truncToInt_eval 20 20 (by norm_num) (by norm_num) (by norm_num)]

theorem scaledSize_10_3 : scaledSize 10 10 3 = (30, 30) := by
  unfold scaledSize
  have hf : fmul ((10 : ℤ) : ℚ) 3 = 30 := by
    rw [fmul_exact ((10 : ℤ) : ℚ) 3 30 0 (by push_cast; norm_num) (by norm_num) (by norm_num)]
    push_cast
    norm_num
  rw [hf, truncToInt_eval 30 30 (by norm_num) (by norm_num) (by norm_num)]

theorem scaledSize_3_half : scaledSize 3 3 (1/2) = (1, 1) := by
  unfold scaledSize
  have hf : fmul ((3 : ℤ) : ℚ) (1/2) = 3/2 := by
    rw [fmul_exact ((3 : ℤ) : ℚ) (1/2) 3 1 (by push_cast; norm_num) (by norm_num) (by norm_num)]
    push_cast
    norm_num
  rw [hf, truncToInt_eval (3/2) 1 (by norm_num) (by norm_num) (by norm_num)]

theorem msBestStep_accept (srcW srcH tplW tplH : ℤ) (corr : Corr)
    (cfg : MultiScaleConfig) (b : Option MatchResult) (s : ℚ)
    (hskip : ¬ sizeSkipped srcW srcH (scaledSize tplW tplH s))
    (hacc : optSim b < (corr (scaledSize tplW tplH s)).1 ∧
      cfg.threshold ≤ (corr (scaledSize tplW tplH s)).1) :
    msBestStep srcW srcH tplW tplH corr cfg b s
      = some (mkScaleResult (corr (scaledSize tplW tplH s)).1
          (corr (scaledSize tplW tplH s)).2 s (scaledSize tplW tplH s)) := by
  unfold msBestStep
  rw [if_neg hskip, if_pos hacc]

theorem msBestStep_reject (srcW srcH tplW tplH : ℤ) (corr : Corr)
    (cfg : MultiScaleConfig) (b : Option MatchResult) (s : ℚ)
    (hskip : ¬ sizeSkipped srcW srcH (scaledSize tplW tplH s))
    (hacc : ¬ (optSim b < (corr (scaledSize tplW tplH s)).1 ∧
      cfg.threshold ≤ (corr (scaledSize tplW tplH s)).1)) :
    msBestStep srcW srcH tplW tplH corr cfg b s = b := by
  unfold msBestStep
  rw [if_neg hskip, if_neg hacc]

theorem scaleSeq_1_3 : scaleSeq 3 1 1 10 = [1, 2, 3] := by
  rw [scaleSeq_unfold _ _ _ _ (by norm_num), if_pos (by norm_num : (1 : ℚ) ≤ 3), fadd_1_1]
  rw [scaleSeq_unfold _ _ _ _ (by norm_num), if_pos (by norm_num : (2 : ℚ) ≤ 3), fadd_2_1]
  rw [scaleSeq_unfold _ _ _ _ (by norm_num), if_pos (by norm_num : (3 : ℚ) ≤ 3), fadd_3_1]
  rw [scaleSeq_empty _ _ _ _ (by norm_num : ¬ (4 : ℚ) ≤ 3)]

theorem scaleSeq_2_3 : scaleSeq 3 1 2 10 = [2, 3] := by
  rw [scaleSeq_unfold _ _ _ _ (by norm_num), if_pos (by norm_num : (2 : ℚ) ≤ 3), fadd_2_1]
  rw [scaleSeq_unfold _ _ _ _ (by norm_num), if_pos (by norm_num : (3 : ℚ) ≤ 3), fadd_3_1]
  rw [scaleSeq_empty _ _ _ _ (by norm_num : ¬ (4 : ℚ) ≤ 3)]

theorem scaleSeq_1_2 : scaleSeq 2 1 1 10 = [1, 2] := by
  rw [scaleSeq_unfold _ _ _ _ (by norm_num), if_pos (by norm_num : (1 : ℚ) ≤ 2), fadd_1_1]
  rw [scaleSeq_unfold _ _ _ _ (by norm_num), if_pos (by norm_num : (2 : ℚ) ≤ 2), fadd_2_1]
  rw [scaleSeq_empty _ _ _ _ (by norm_num : ¬ (3 : ℚ) ≤ 2)]

theorem scaleSeq_half_list : scaleSeq (1/2) 1 (1/2) 10 = [1/2] := by
  rw [scaleSeq_unfold _ _ _ _ (by norm_num), if_pos (le_refl ((1 : ℚ)/2)), fadd_half_one]
  rw [scaleSeq_empty _ _ _ _ (by norm_num : ¬ (3 : ℚ)/2 ≤ 1/2)]

theorem scaleSeq_1_1_list : scaleSeq 1 1 1 10 = [1] := by
  rw [scaleSeq_unfold _ _ _ _ (by norm_num), if_pos (le_refl (1 : ℚ)), fadd_1_1]
  rw [scaleSeq_empty _ _ _ _ (by norm_num : ¬ (2 : ℚ) ≤ 1)]

/-! ### Concrete configurations and oracles -/

/-- An oracle on which every correlation returns score zero. -/
def corrZero : Corr := fun _ => (0, ⟨0, 0⟩)

/-- Degenerate configuration with minScale > maxScale. -/
def cfgDegenerate : MultiScaleConfig := ⟨2, 1, 1, 1/2, 5⟩

/-- When every scale is skipped the best-match fold never leaves nil. -/
theorem msBestFold_allSkipped (srcW srcH tplW tplH : ℤ) (corr : Corr)
    (cfg : MultiScaleConfig) (l : List ℚ)
    (h : ∀ s, sizeSkipped srcW srcH (scaledSize tplW tplH s)) :
    List.foldl (msBestStep srcW srcH tplW tplH corr cfg) none l = none := by
  induction l with
  | nil => rfl
  | cons a l ih =>
    rw [List.foldl_cons]
    have hstep : msBestStep srcW srcH tplW tplH corr cfg none a = none := by
      unfold msBestStep
      rw [if_pos (h a)]
    rw [hstep]
    exact ih

/-- When every scale is skipped the accumulation loop never appends. -/
theorem msAllLoop_allSkipped (srcW srcH tplW tplH : ℤ) (corr : Corr)
    (cfg : MultiScaleConfig)
    (h : ∀ s, sizeSkipped srcW srcH (scaledSize tplW tplH s)) :
    ∀ (fuel : ℕ) (s : ℚ) (acc : List MatchResult),
    msAllLoop srcW srcH tplW tplH corr cfg s fuel acc = acc := by
  intro fuel
  induction fuel with
  | zero => intro s acc; rfl
  | succ n ih =>
    intro s acc
    simp only [msAllLoop]
    by_cases h1 : s ≤ cfg.maxScale
    · rw [if_pos h1, if_pos (h s)]
      exact ih _ _
    · rw [if_neg h1]

/-- A nonpositive source width makes every size skipped. -/
theorem sizeSkipped_of_empty (srcW srcH : ℤ) (sz : ℤ × ℤ) (h : srcW ≤ 0) :
    sizeSkipped srcW srcH sz := by
  unfold sizeSkipped
  rcases le_or_lt sz.1 0 with h1 | h1
  · exact Or.inl h1
  · exact Or.inr (Or.inr (Or.inl (by linarith)))

/-- Shared helper: a degenerate range or an empty source buffer yields the
ordinary no-match results with nil error. -/
theorem noValidation_helper (srcW srcH tplW tplH : ℤ) (corr : Corr)
    (cfg : MultiScaleConfig) (fuel : ℕ)
    (h : cfg.maxScale < cfg.minScale ∨ srcW ≤ 0) :
    multiScaleTemplateMatching srcW srcH tplW tplH corr cfg fuel
        = .ok noMatchResult ∧
      MultiScaleTemplateMatchingAll srcW srcH tplW tplH corr cfg fuel = .ok [] := by
  rcases h with h | h
  · constructor
    · unfold multiScaleTemplateMatching
      rw [scaleSeq_empty _ _ _ _ (not_le.mpr h)]
      rfl
    · unfold MultiScaleTemplateMatchingAll
      have hl : msAllLoop srcW srcH tplW tplH corr cfg cfg.minScale fuel [] = [] := by
        cases fuel with
        | zero => rfl
        | succ n =>
          simp only [msAllLoop]
          rw [if_neg (not_le.mpr h)]
      rw [hl]
      rfl
  · have hsk : ∀ s, sizeSkipped srcW srcH (scaledSize tplW tplH s) := by
      intro s
      exact sizeSkipped_of_empty srcW srcH _ h
    constructor
    · unfold multiScaleTemplateMatching
      rw [msBestFold_allSkipped srcW srcH tplW tplH corr cfg _ hsk]
      rfl
    · unfold MultiScaleTemplateMatchingAll
      rw [msAllLoop_allSkipped srcW srcH tplW tplH corr cfg hsk fuel cfg.minScale []]
      rfl

/-! ### Claim theorems -/

/-- C4: for every source, template, config and per-scale score oracle, the
result of the best-match search is either the canonical no-match result
(similarity 0, empty bounding box) or has similarity at least
config.Threshold; a nonzero sub-threshold similarity is never returned. -/
theorem C4_threshold_enforcement (srcW srcH tplW tplH : ℤ) (corr : Corr)
    (cfg : MultiScaleConfig) (fuel : ℕ) :
    ∃ r, multiScaleTemplateMatching srcW srcH tplW tplH corr cfg fuel = .ok r ∧
      (r = noMatchResult ∨ cfg.threshold ≤ r.similarity) := by
  unfold multiScaleTemplateMatching
  rcases msBestFold_sound srcW srcH tplW tplH corr cfg
      (scaleSeq cfg.maxScale cfg.scaleStep cfg.minScale fuel) none with h | h
  · rw [h]
    exact ⟨noMatchResult, rfl, Or.inl rfl⟩
  · obtain ⟨s, _, _, hthr, _, heq⟩ := h
    rw [heq]
    refine ⟨_, rfl, Or.inr ?_⟩
    simpa [mkScaleResult, Option.getD] using hthr

/-- C5 (amended): the multi-scale operations perform no precondition
validation; with minScale > maxScale, or an empty source buffer, the
best-match search returns the ordinary zero-similarity no-match result and
the multi-result search returns the empty list, both with nil error, instead
of failing. -/
theorem C5_no_validation (srcW srcH tplW tplH : ℤ) (corr : Corr)
    (cfg : MultiScaleConfig) (fuel : ℕ)
    (h : cfg.maxScale < cfg.minScale ∨ srcW ≤ 0) :
    multiScaleTemplateMatching srcW srcH tplW tplH corr cfg fuel
        = .ok noMatchResult ∧
      MultiScaleTemplateMatchingAll srcW srcH tplW tplH corr cfg fuel = .ok [] :=
  noValidation_helper srcW srcH tplW tplH corr cfg fuel h

/-- C5 witness: the amended claim applied to a concrete degenerate
configuration (minScale 2 > maxScale 1). -/
theorem C5_no_validation_witness :
    multiScaleTemplateMatching 100 100 10 10 corrZero cfgDegenerate 10
        = .ok noMatchResult ∧
      MultiScaleTemplateMatchingAll 100 100 10 10 corrZero cfgDegenerate 10 = .ok [] :=
  C5_no_validation 100 100 10 10 corrZero cfgDegenerate 10 (Or.inl (by norm_num [cfgDegenerate]))

/-- C5 counterexample: the claim as stated is false — on the degenerate
configuration minScale 2 > maxScale 1 the operations do not fail with an
error; they return the ordinary no-match value and the empty list, each
paired with a nil error. -/
theorem C5_counterexample :
    multiScaleTemplateMatching 100 100 10 10 corrZero cfgDegenerate 10
        = .ok noMatchResult ∧
      MultiScaleTemplateMatchingAll 100 100 10 10 corrZero cfgDegenerate 10 = .ok [] :=
  noValidation_helper 100 100 10 10 corrZero cfgDegenerate 10 (Or.inl (by norm_num [cfgDegenerate]))

/-- C7: ToScreenCoordinates is the pure translation by the window
rectangle's minimum corner, so subtracting that corner recovers the
window-relative location exactly. -/
theorem C7_to_screen_roundtrip (m : MatchResult) (w : WindowInfo) :
    (ToScreenCoordinates m w).x - w.rect.min.x = m.location.x ∧
    (ToScreenCoordinates m w).y - w.rect.min.y = m.location.y := by
  unfold ToScreenCoordinates
  constructor <;> ring

/-- C10: when the comparison succeeds with a zero-similarity result,
FindAndClick performs no click, returns that result, and — because WrapError
returns nil when wrapping a nil error — returns a nil error, so the only
not-found signal is Similarity == 0. -/
theorem C10_no_match_nil_error (r : MatchResult) (clickErr : Option String)
    (h : r.similarity = 0) :
    FindAndClick (.ok r) clickErr = (some r, none, false) := by
  simp [FindAndClick, h, WrapError]

/-- C10 witness at the canonical no-match result. -/
theorem C10_no_match_nil_error_witness :
    FindAndClick (.ok noMatchResult) none = (some noMatchResult, none, false) :=
  C10_no_match_nil_error noMatchResult none rfl

/-- The capture environment in which PrintWindow fails, every GDI setup call
succeeds, and the BitBlt fallback then fails as well. -/
def envDoubleFailure : WinEnv :=
  { getDCScreen := true, createDCScreen := true, createBitmapScreen := true,
    selectObjectPW := true, printWindow := false, getDCWindow := true,
    createDCWindow := true, createBitmapWindow := true, selectObjectBB := true,
    bitBlt := false, getDCScreenB := true, getDIBits := true }

/-- C9: at the double-failure input, the occlusion-tolerant capture makes
exactly one PrintWindow attempt, then exactly one warning followed by exactly
one BitBlt fallback attempt — but the returned pair is (nil image, nil
error): WrapError dropped the constructed BitBlt failed message, so no error
is reported, contradicting the claim that the call returns an error. -/
theorem C9_fallback_trace :
    captureWindowWithPrintWindow envDoubleFailure
      = ([.printWindowCall, .warnFallback, .bitBltCall], none, none) := rfl

/-- C2 (evaluating the scale loop at the failing input): with the float64
values of minScale=0.1, maxScale=0.3, scaleStep=0.1 the loop evaluates only
the scales float64(0.1) and float64(0.2) — the third intended scale, maxScale
itself, is silently skipped, because the accumulated float64 sum
0.1+0.1+0.1 strictly exceeds float64(0.3) and the stopping condition
scale <= maxScale carries no epsilon.  The two examples quoted by the claim
do hold: 0.9..1.1 with step 0.1 happens to evaluate exactly the three scales
{float64(0.9), 1.0, float64(1.1)}, and 1.0..1.0 evaluates exactly {1.0}. -/
theorem C2_epsilon_missing_skips_max_scale :
    scaleSeq (round64 (3/10)) (round64 (1/10)) (round64 (1/10)) 10
        = [round64 (1/10), round64 (1/5)] ∧
      round64 (3/10) ∉ scaleSeq (round64 (3/10)) (round64 (1/10)) (round64 (1/10)) 10 ∧
      scaleSeq (round64 (11/10)) (round64 (1/10)) (round64 (9/10)) 10
        = [round64 (9/10), 1, round64 (11/10)] ∧
      scaleSeq 1 (round64 (1/10)) 1 10 = [1] := by
  rw [round64_lit01, round64_lit02, round64_lit03, round64_lit09, round64_lit11]
  have hd01 : fadd (3602879701896397 / 2 ^ 55 : ℚ) (3602879701896397 / 2 ^ 55)
      = 7205759403792794 / 2 ^ 55 := by
    rw [fadd_exact _ _ 7205759403792794 55 (by norm_num) (by norm_num) (by norm_num)]
    norm_num
  have e1 : scaleSeq (5404319552844595 / 2 ^ 54) (3602879701896397 / 2 ^ 55)
      (3602879701896397 / 2 ^ 55) 10
      = [(3602879701896397 / 2 ^ 55 : ℚ), 7205759403792794 / 2 ^ 55] := by
    rw [scaleSeq_unfold _ _ _ _ (by norm_num), if_pos (by norm_num), hd01]
    rw [scaleSeq_unfold _ _ _ _ (by norm_num), if_pos (by norm_num), fadd_d02_d01]
    rw [scaleSeq_empty _ _ _ _ (by norm_num)]
  have e3 : scaleSeq (4953959590107546 / 2 ^ 52) (3602879701896397 / 2 ^ 55)
      (8106479329266893 / 2 ^ 53) 10
      = [(8106479329266893 / 2 ^ 53 : ℚ), 1, 4953959590107546 / 2 ^ 52] := by
    rw [scaleSeq_unfold _ _ _ _ (by norm_num), if_pos (by norm_num), fadd_d09_d01]
    rw [scaleSeq_unfold _ _ _ _ (by norm_num), if_pos (by norm_num), fadd_one_d01]
    rw [scaleSeq_unfold _ _ _ _ (by norm_num), if_pos (le_refl _), fadd_d11_d01]
    rw [scaleSeq_empty _ _ _ _ (by norm_num)]
  have e4 : scaleSeq 1 (3602879701896397 / 2 ^ 55) 1 10 = [1] := by
    rw [scaleSeq_unfold _ _ _ _ (by norm_num), if_pos (le_refl _), fadd_one_d01]
    rw [scaleSeq_empty _ _ _ _ (by norm_num)]
  refine ⟨e1, ?_, e3, e4⟩
  rw [e1]
  simp only [List.mem_cons, List.not_mem_nil, or_false]
  push_neg
  constructor <;> norm_num

/-- C3 (amended: positive peak score): whenever the evaluated scales are
strictly increasing and some non-skipped scale attains the maximum score m,
with m positive and at or above the threshold, the returned MatchResult
carries that score and the smallest scale attaining it — the running best is
replaced only under a strictly-greater comparison and scales are iterated
ascending. -/
theorem C3_tiebreak_smallest_scale (srcW srcH tplW tplH : ℤ) (corr : Corr)
    (cfg : MultiScaleConfig) (fuel : ℕ) (m : ℚ)
    (hsort : (scaleSeq cfg.maxScale cfg.scaleStep cfg.minScale fuel).Pairwise (· < ·))
    (hpos : 0 < m) (hthr : cfg.threshold ≤ m)
    (hmax : ∀ s ∈ scaleSeq cfg.maxScale cfg.scaleStep cfg.minScale fuel,
      ¬ sizeSkipped srcW srcH (scaledSize tplW tplH s) →
      (corr (scaledSize tplW tplH s)).1 ≤ m)
    (hex : ∃ s ∈ scaleSeq cfg.maxScale cfg.scaleStep cfg.minScale fuel,
      ¬ sizeSkipped srcW srcH (scaledSize tplW tplH s) ∧
      (corr (scaledSize tplW tplH s)).1 = m) :
    ∃ r, multiScaleTemplateMatching srcW srcH tplW tplH corr cfg fuel = .ok r ∧
      r.similarity = m ∧
      r.scale ∈ scaleSeq cfg.maxScale cfg.scaleStep cfg.minScale fuel ∧
      ¬ sizeSkipped srcW srcH (scaledSize tplW tplH r.scale) ∧
      (corr (scaledSize tplW tplH r.scale)).1 = m ∧
      ∀ s ∈ scaleSeq cfg.maxScale cfg.scaleStep cfg.minScale fuel,
        ¬ sizeSkipped srcW srcH (scaledSize tplW tplH s) →
        (corr (scaledSize tplW tplH s)).1 = m → r.scale ≤ s := by
  obtain ⟨s0, hs0mem, hs0sk, hs0sc⟩ := hex
  have hmle : m ≤ optSim (List.foldl (msBestStep srcW srcH tplW tplH corr cfg) none
      (scaleSeq cfg.maxScale cfg.scaleStep cfg.minScale fuel)) := by
    have h := msBestFold_max srcW srcH tplW tplH corr cfg
      (scaleSeq cfg.maxScale cfg.scaleStep cfg.minScale fuel) none s0 hs0mem hs0sk
      (by rw [hs0sc]; exact hthr)
    rw [hs0sc] at h
    exact h
  rcases msBestFold_sound srcW srcH tplW tplH corr cfg
      (scaleSeq cfg.maxScale cfg.scaleStep cfg.minScale fuel) none with hfold | hfold
  · exfalso
    rw [hfold] at hmle
    simp only [optSim] at hmle
    linarith
  · obtain ⟨sp, hspmem, hspsk, hspthr, hsplt, heq⟩ := hfold
    have hsim : (corr (scaledSize tplW tplH sp)).1 = m := by
      have h1 : (corr (scaledSize tplW tplH sp)).1 ≤ m := hmax sp hspmem hspsk
      have h2 : m ≤ (corr (scaledSize tplW tplH sp)).1 := by
        rw [heq] at hmle
        simpa [optSim, mkScaleResult] using hmle
      linarith
    refine ⟨mkScaleResult (corr (scaledSize tplW tplH sp)).1
      (corr (scaledSize tplW tplH sp)).2 sp (scaledSize tplW tplH sp),
      ?_, by simpa [mkScaleResult] using hsim, by simpa [mkScaleResult] using hspmem,
      by simpa [mkScaleResult] using hspsk, by simpa [mkScaleResult] using hsim, ?_⟩
    · unfold multiScaleTemplateMatching
      rw [heq]
      rfl
    · intro s hsmem hssk hssc
      show sp ≤ s
      by_contra hcon
      push_neg at hcon
      obtain ⟨l1, l2, hsplit⟩ := List.append_of_mem hsmem
      have hb2ge : m ≤ optSim (msBestStep srcW srcH tplW tplH corr cfg
          (List.foldl (msBestStep srcW srcH tplW tplH corr cfg) none l1) s) := by
        by_cases hble : optSim (List.foldl (msBestStep srcW srcH tplW tplH corr cfg) none l1)
            < (corr (scaledSize tplW tplH s)).1
        · rw [msBestStep_accept srcW srcH tplW tplH corr cfg _ s hssk
            ⟨hble, by rw [hssc]; exact hthr⟩]
          simp only [optSim, mkScaleResult]
          rw [hssc]
        · push_neg at hble
          have hmb1 : m ≤ optSim (List.foldl (msBestStep srcW srcH tplW tplH corr cfg)
              none l1) := hssc ▸ hble
          exact le_trans hmb1 (msBestStep_mono srcW srcH tplW tplH corr cfg _ s)
      have htot : List.foldl (msBestStep srcW srcH tplW tplH corr cfg) none
          (scaleSeq cfg.maxScale cfg.scaleStep cfg.minScale fuel)
          = List.foldl (msBestStep srcW srcH tplW tplH corr cfg)
              (msBestStep srcW srcH tplW tplH corr cfg
                (List.foldl (msBestStep srcW srcH tplW tplH corr cfg) none l1) s) l2 := by
        rw [hsplit, List.foldl_append, List.foldl_cons]
      rcases msBestFold_sound srcW srcH tplW tplH corr cfg l2
          (msBestStep srcW srcH tplW tplH corr cfg
            (List.foldl (msBestStep srcW srcH tplW tplH corr cfg) none l1) s) with h2 | h2
      · have hbeq : msBestStep srcW srcH tplW tplH corr cfg
            (List.foldl (msBestStep srcW srcH tplW tplH corr cfg) none l1) s
            = some (mkScaleResult (corr (scaledSize tplW tplH sp)).1
                (corr (scaledSize tplW tplH sp)).2 sp (scaledSize tplW tplH sp)) := by
          rw [← h2, ← htot, heq]
        by_cases hble : optSim (List.foldl (msBestStep srcW srcH tplW tplH corr cfg) none l1)
              < (corr (scaledSize tplW tplH s)).1 ∧
            cfg.threshold ≤ (corr (scaledSize tplW tplH s)).1
        · rw [msBestStep_accept srcW srcH tplW tplH corr cfg _ s hssk hble] at hbeq
          have hinj := Option.some.inj hbeq
          have hss := congrArg MatchResult.scale hinj
          simp only [mkScaleResult] at hss
          exact absurd hss (ne_of_lt hcon)
        · rw [msBestStep_reject srcW srcH tplW tplH corr cfg _ s hssk hble] at hbeq
          rcases msBestFold_sound srcW srcH tplW tplH corr cfg l1 none with h3 | h3
          · rw [h3] at hbeq
            exact Option.noConfusion hbeq
          · obtain ⟨s1, hs1mem, _, _, _, heq1⟩ := h3
            rw [heq1] at hbeq
            have hinj := Option.some.inj hbeq
            have hss := congrArg MatchResult.scale hinj
            simp only [mkScaleResult] at hss
            have hpair : ∀ a ∈ l1, a < s := by
              rw [hsplit] at hsort
              intro a ha
              exact (List.pairwise_append.mp hsort).2.2 a ha s (List.mem_cons_self _ _)
            have hs1lt : s1 < s := hpair s1 hs1mem
            rw [hss] at hs1lt
            exact absurd hcon (not_lt.mpr (le_of_lt hs1lt))
      · obtain ⟨s2, hs2mem, hs2sk, _, hs2lt, _⟩ := h2
        have hs2l : s2 ∈ scaleSeq cfg.maxScale cfg.scaleStep cfg.minScale fuel := by
          rw [hsplit]
          exact List.mem_append_right _ (List.mem_cons_of_mem _ hs2mem)
        have hle := hmax s2 hs2l hs2sk
        linarith

/-- Degenerate configuration for the tie-break corner: threshold 0. -/
def cfgC3x : MultiScaleConfig := ⟨2, 3, 1, 0, 5⟩

/-- C3 counterexample: with threshold 0 and every correlation score equal to
0, the scales 2 and 3 are both evaluated, both valid, and share the maximum
score 0, which is at-or-above the threshold — yet the returned result is the
canonical no-match value whose Scale field is 1.0, not the smallest such
scale 2: a zero peak is never accepted by the strictly-greater test against
the initial bestSimilarity of 0. -/
theorem C3_counterexample :
    multiScaleTemplateMatching 100 100 10 10 corrZero cfgC3x 10 = .ok noMatchResult ∧
    scaleSeq cfgC3x.maxScale cfgC3x.scaleStep cfgC3x.minScale 10 = [2, 3] ∧
    ¬ sizeSkipped 100 100 (scaledSize 10 10 2) ∧
    ¬ sizeSkipped 100 100 (scaledSize 10 10 3) ∧
    (corrZero (scaledSize 10 10 2)).1 = 0 ∧
    (corrZero (scaledSize 10 10 3)).1 = 0 ∧
    cfgC3x.threshold ≤ 0 ∧
    noMatchResult.scale = 1 ∧ (1 : ℚ) ≠ 2 := by
  have hseq : scaleSeq cfgC3x.maxScale cfgC3x.scaleStep cfgC3x.minScale 10 = [2, 3] :=
    scaleSeq_2_3
  have h2sk : ¬ sizeSkipped 100 100 (scaledSize 10 10 2) := by
    rw [scaledSize_10_2]
    decide
  have h3sk : ¬ sizeSkipped 100 100 (scaledSize 10 10 3) := by
    rw [scaledSize_10_3]
    decide
  refine ⟨?_, hseq, h2sk, h3sk, rfl, rfl, le_refl _, rfl, by norm_num⟩
  unfold multiScaleTemplateMatching
  rw [hseq, List.foldl_cons,
    msBestStep_reject 100 100 10 10 corrZero cfgC3x none 2 h2sk
      (by simp [optSim, corrZero]),
    List.foldl_cons,
    msBestStep_reject 100 100 10 10 corrZero cfgC3x none 3 h3sk
      (by simp [optSim, corrZero]),
    List.foldl_nil]
  rfl

/-- Oracle realizing a score tie between two scales. -/
def corrC3 : Corr := fun sz =>
  if sz = (10, 10) then (4/5, ⟨1, 2⟩)
  else if sz = (20, 20) then (4/5, ⟨3, 4⟩)
  else (0, ⟨0, 0⟩)

/-- Configuration evaluating the scales 1 and 2. -/
def cfgC3w : MultiScaleConfig := ⟨1, 2, 1, 1/2, 5⟩

/-- C3 witness: the tie-break theorem applied to a concrete run in which the
scales 1 and 2 both score 4/5. -/
theorem C3_tiebreak_smallest_scale_witness :
    ∃ r, multiScaleTemplateMatching 100 100 10 10 corrC3 cfgC3w 10 = .ok r ∧
      r.similarity = 4/5 ∧
      r.scale ∈ scaleSeq cfgC3w.maxScale cfgC3w.scaleStep cfgC3w.minScale 10 ∧
      ¬ sizeSkipped 100 100 (scaledSize 10 10 r.scale) ∧
      (corrC3 (scaledSize 10 10 r.scale)).1 = 4/5 ∧
      ∀ s ∈ scaleSeq cfgC3w.maxScale cfgC3w.scaleStep cfgC3w.minScale 10,
        ¬ sizeSkipped 100 100 (scaledSize 10 10 s) →
        (corrC3 (scaledSize 10 10 s)).1 = 4/5 → r.scale ≤ s := by
  have hseq : scaleSeq cfgC3w.maxScale cfgC3w.scaleStep cfgC3w.minScale 10 = [1, 2] :=
    scaleSeq_1_2
  refine C3_tiebreak_smallest_scale 100 100 10 10 corrC3 cfgC3w 10 (4/5)
    ?_ (by norm_num) (by norm_num [cfgC3w]) ?_ ?_
  · rw [hseq]
    refine List.pairwise_cons.mpr ⟨?_, List.pairwise_singleton _ _⟩
    intro b hb
    rw [List.mem_singleton.mp hb]
    norm_num
  · intro s hs hskip
    rw [hseq] at hs
    rcases List.mem_cons.mp hs with h1 | h1
    · subst h1
      rw [scaledSize_10_1]
      simp [corrC3]
    · rw [List.mem_singleton.mp h1, scaledSize_10_2]
      simp [corrC3]
  · refine ⟨1, ?_, ?_, ?_⟩
    · rw [hseq]
      simp
    · rw [scaledSize_10_1]
      decide
    · rw [scaledSize_10_1]
      simp [corrC3]

/-- C6 (amended): the scaled template dimensions are the int-truncation
(toward zero) of template dimension times scale — not round-to-nearest —
and any returned match has its bounding box anchored at the match location
with exactly those truncated dimensions. -/
theorem C6_boundingbox_truncated_size (srcW srcH tplW tplH : ℤ) (corr : Corr)
    (cfg : MultiScaleConfig) (fuel : ℕ) (r : MatchResult)
    (h : multiScaleTemplateMatching srcW srcH tplW tplH corr cfg fuel = .ok r)
    (h0 : 0 < r.similarity) :
    r.boundingBox.min = r.location ∧
    r.boundingBox.max.x = r.location.x + (scaledSize tplW tplH r.scale).1 ∧
    r.boundingBox.max.y = r.location.y + (scaledSize tplW tplH r.scale).2 := by
  unfold multiScaleTemplateMatching at h
  rcases msBestFold_sound srcW srcH tplW tplH corr cfg
      (scaleSeq cfg.maxScale cfg.scaleStep cfg.minScale fuel) none with hfold | hfold
  · rw [hfold] at h
    have hr := Except.ok.inj h
    rw [← hr] at h0
    simp only [Option.getD_none] at h0
    exact absurd h0 (by norm_num [noMatchResult])
  · obtain ⟨s, _, _, _, _, heq⟩ := hfold
    rw [heq] at h
    simp only [Option.getD_some] at h
    have hr := Except.ok.inj h
    subst hr
    exact ⟨rfl, rfl, rfl⟩

/-- Oracle scoring 9/10 at the truncated size (1, 1). -/
def corrC6 : Corr := fun sz => if sz = (1, 1) then (9/10, ⟨7, 8⟩) else (0, ⟨0, 0⟩)

/-- Configuration evaluating only the scale 0.5. -/
def cfgC6 : MultiScaleConfig := ⟨1/2, 1/2, 1, 1/2, 5⟩

/-- Concrete run: a 3x3 template at scale 0.5 matches with size (1, 1),
because int(3 * 0.5) truncates 1.5 down to 1. -/
theorem run_C6 : multiScaleTemplateMatching 100 100 3 3 corrC6 cfgC6 10
    = .ok (mkScaleResult (9/10) ⟨7, 8⟩ (1/2) (1, 1)) := by
  unfold multiScaleTemplateMatching
  rw [show scaleSeq cfgC6.maxScale cfgC6.scaleStep cfgC6.minScale 10 = [1/2] from
    scaleSeq_half_list]
  have hsk : ¬ sizeSkipped 100 100 (scaledSize 3 3 (1/2)) := by
    rw [scaledSize_3_half]
    decide
  rw [List.foldl_cons,
    msBestStep_accept 100 100 3 3 corrC6 cfgC6 none (1/2) hsk
      ⟨by rw [scaledSize_3_half]; simp only [corrC6, optSim]; norm_num,
       by rw [scaledSize_3_half]; simp only [corrC6]; norm_num [cfgC6]⟩,
    List.foldl_nil, scaledSize_3_half]
  simp [corrC6]

/-- C6 counterexample: at scale 0.5 a 3x3 template gets the truncated size
int(1.5) = 1, so the returned bounding box is 1 pixel wide — while the claim
says the width is round(3 * 0.5) = 2. -/
theorem C6_counterexample :
    multiScaleTemplateMatching 100 100 3 3 corrC6 cfgC6 10
      = .ok (mkScaleResult (9/10) ⟨7, 8⟩ (1/2) (1, 1)) ∧
    (mkScaleResult (9/10) ⟨7, 8⟩ (1/2) (1, 1)).boundingBox.max.x
      - (mkScaleResult (9/10) ⟨7, 8⟩ (1/2) (1, 1)).boundingBox.min.x = 1 ∧
    round (((3 : ℤ) : ℚ) * (1/2)) = 2 ∧ (1 : ℤ) ≠ 2 :=
  ⟨run_C6, rfl,
    by
      rw [round_eq]
      exact floorRat_eval _ 2 (by norm_num) (by norm_num),
    by norm_num⟩

/-- C6 witness: the amended bounding-box property at the concrete run. -/
theorem C6_boundingbox_truncated_size_witness :
    (mkScaleResult (9/10) ⟨7, 8⟩ (1/2) (1, 1)).boundingBox.min
        = (mkScaleResult (9/10) ⟨7, 8⟩ (1/2) (1, 1)).location ∧
      (mkScaleResult (9/10) ⟨7, 8⟩ (1/2) (1, 1)).boundingBox.max.x
        = (mkScaleResult (9/10) ⟨7, 8⟩ (1/2) (1, 1)).location.x
          + (scaledSize 3 3 (mkScaleResult (9/10) ⟨7, 8⟩ (1/2) (1, 1)).scale).1 ∧
      (mkScaleResult (9/10) ⟨7, 8⟩ (1/2) (1, 1)).boundingBox.max.y
        = (mkScaleResult (9/10) ⟨7, 8⟩ (1/2) (1, 1)).location.y
          + (scaledSize 3 3 (mkScaleResult (9/10) ⟨7, 8⟩ (1/2) (1, 1)).scale).2 :=
  C6_boundingbox_truncated_size 100 100 3 3 corrC6 cfgC6 10 _ run_C6
    (by norm_num [mkScaleResult])

/-! ### Unfolding helpers for concrete multi-result runs -/

theorem msAllLoop_unfold (srcW srcH tplW tplH : ℤ) (corr : Corr)
    (cfg : MultiScaleConfig) (s : ℚ) (fuel : ℕ) (acc : List MatchResult)
    (h : fuel ≠ 0) :
    msAllLoop srcW srcH tplW tplH corr cfg s fuel acc
      = if s ≤ cfg.maxScale then
          if sizeSkipped srcW srcH (scaledSize tplW tplH s) then
            msAllLoop srcW srcH tplW tplH corr cfg (fadd s cfg.scaleStep) (fuel - 1) acc
          else if cfg.maxResults ≤ ((msAllAppend tplW tplH corr cfg acc s).length : ℤ) then
            msAllAppend tplW tplH corr cfg acc s
          else
            msAllLoop srcW srcH tplW tplH corr cfg (fadd s cfg.scaleStep) (fuel - 1)
              (msAllAppend tplW tplH corr cfg acc s)
        else acc := by
  cases fuel with
  | zero => exact absurd rfl h
  | succ n => rfl

theorem candSeq_unfold (srcW srcH tplW tplH : ℤ) (corr : Corr)
    (cfg : MultiScaleConfig) (s : ℚ) (fuel : ℕ) (h : fuel ≠ 0) :
    candSeq srcW srcH tplW tplH corr cfg s fuel
      = if s ≤ cfg.maxScale then
          (if sizeSkipped srcW srcH (scaledSize tplW tplH s) then []
           else if cfg.threshold ≤ (corr (scaledSize tplW tplH s)).1 then
             [mkScaleResult (corr (scaledSize tplW tplH s)).1
               (corr (scaledSize tplW tplH s)).2 s (scaledSize tplW tplH s)]
           else [])
          ++ candSeq srcW srcH tplW tplH corr cfg (fadd s cfg.scaleStep) (fuel - 1)
        else [] := by
  cases fuel with
  | zero => exact absurd rfl h
  | succ n => rfl

theorem candSeq_empty (srcW srcH tplW tplH : ℤ) (corr : Corr)
    (cfg : MultiScaleConfig) (s : ℚ) (fuel : ℕ) (h : ¬ s ≤ cfg.maxScale) :
    candSeq srcW srcH tplW tplH corr cfg s fuel = [] := by
  cases fuel with
  | zero => rfl
  | succ n =>
    simp only [candSeq]
    rw [if_neg h]

theorem selectPass_nil (x : MatchResult) : selectPass x [] = (x, []) := rfl

theorem selectPass_cons_lt (x y : MatchResult) (ys : List MatchResult)
    (h : x.similarity < y.similarity) :
    selectPass x (y :: ys) = ((selectPass y ys).1, x :: (selectPass y ys).2) := by
  simp only [selectPass]
  rw [if_pos h]

theorem selectPass_cons_ge (x y : MatchResult) (ys : List MatchResult)
    (h : ¬ x.similarity < y.similarity) :
    selectPass x (y :: ys) = ((selectPass x ys).1, y :: (selectPass x ys).2) := by
  simp only [selectPass]
  rw [if_neg h]

theorem selSortFuel_cons (fuel : ℕ) (x : MatchResult) (xs : List MatchResult)
    (h : fuel ≠ 0) :
    selSortFuel fuel (x :: xs)
      = (selectPass x xs).1 :: selSortFuel (fuel - 1) (selectPass x xs).2 := by
  cases fuel with
  | zero => exact absurd rfl h
  | succ n => rfl

/-! ### C1: truncation versus sorting in the multi-result search -/

/-- Oracle with a weak match at scale 1, a weaker one at scale 2 and the
strongest one at scale 3. -/
def corrC1 : Corr := fun sz =>
  if sz = (10, 10) then (3/5, ⟨0, 0⟩)
  else if sz = (20, 20) then (11/20, ⟨5, 5⟩)
  else if sz = (30, 30) then (9/10, ⟨7, 7⟩)
  else (0, ⟨0, 0⟩)

/-- Scales 1..3, threshold 1/2, at most one result. -/
def cfgC1 : MultiScaleConfig := ⟨1, 3, 1, 1/2, 1⟩

def resultC1a : MatchResult := mkScaleResult (3/5) ⟨0, 0⟩ 1 (10, 10)
def resultC1b : MatchResult := mkScaleResult (11/20) ⟨5, 5⟩ 2 (20, 20)
def resultC1c : MatchResult := mkScaleResult (9/10) ⟨7, 7⟩ 3 (30, 30)

theorem msAllAppend_C1 : msAllAppend 10 10 corrC1 cfgC1 [] 1 = [resultC1a] := by
  unfold msAllAppend
  rw [scaledSize_10_1]
  rw [if_pos (by norm_num [corrC1, cfgC1])]
  simp [corrC1, resultC1a]

theorem run_C1_go : MultiScaleTemplateMatchingAll 100 100 10 10 corrC1 cfgC1 10
    = .ok [resultC1a] := by
  unfold MultiScaleTemplateMatchingAll
  rw [show cfgC1.minScale = (1 : ℚ) from rfl]
  rw [msAllLoop_unfold 100 100 10 10 corrC1 cfgC1 1 10 [] (by norm_num)]
  rw [if_pos (by norm_num [cfgC1] : (1 : ℚ) ≤ cfgC1.maxScale)]
  rw [if_neg (by rw [scaledSize_10_1]; decide :
    ¬ sizeSkipped 100 100 (scaledSize 10 10 1))]
  rw [msAllAppend_C1]
  rw [if_pos (by norm_num [cfgC1] :
    cfgC1.maxResults ≤ (([resultC1a] : List MatchResult).length : ℤ))]
  rfl

theorem candSeq_C1 : candSeq 100 100 10 10 corrC1 cfgC1 1 10
    = [resultC1a, resultC1b, resultC1c] := by
  rw [candSeq_unfold 100 100 10 10 corrC1 cfgC1 1 10 (by norm_num)]
  rw [if_pos (by norm_num [cfgC1] : (1 : ℚ) ≤ cfgC1.maxScale)]
  rw [show cfgC1.scaleStep = (1 : ℚ) from rfl]
  rw [scaledSize_10_1, fadd_1_1]
  rw [if_neg (by decide : ¬ sizeSkipped 100 100 ((10 : ℤ), (10 : ℤ)))]
  rw [if_pos (by norm_num [corrC1, cfgC1])]
  rw [candSeq_unfold 100 100 10 10 corrC1 cfgC1 2 (10 - 1) (by norm_num)]
  rw [if_pos (by norm_num [cfgC1] : (2 : ℚ) ≤ cfgC1.maxScale)]
  rw [show cfgC1.scaleStep = (1 : ℚ) from rfl]
  rw [scaledSize_10_2, fadd_2_1]
  rw [if_neg (by decide : ¬ sizeSkipped 100 100 ((20 : ℤ), (20 : ℤ)))]
  rw [if_pos (by norm_num [corrC1, cfgC1])]
  rw [candSeq_unfold 100 100 10 10 corrC1 cfgC1 3 (10 - 1 - 1) (by norm_num)]
  rw [if_pos (by norm_num [cfgC1] : (3 : ℚ) ≤ cfgC1.maxScale)]
  rw [show cfgC1.scaleStep = (1 : ℚ) from rfl]
  rw [scaledSize_10_3, fadd_3_1]
  rw [if_neg (by decide : ¬ sizeSkipped 100 100 ((30 : ℤ), (30 : ℤ)))]
  rw [if_pos (by norm_num [corrC1, cfgC1])]
  rw [candSeq_empty 100 100 10 10 corrC1 cfgC1 4 _ (by norm_num [cfgC1])]
  simp [corrC1, resultC1a, resultC1b, resultC1c]

theorem sort_C1 : sortBySimilarity [resultC1a, resultC1b, resultC1c]
    = [resultC1c, resultC1a, resultC1b] := by
  have hAC : resultC1a.similarity < resultC1c.similarity := by
    norm_num [resultC1a, resultC1c, mkScaleResult]
  have hAB : ¬ resultC1a.similarity < resultC1b.similarity := by
    norm_num [resultC1a, resultC1b, mkScaleResult]
  have hBA : resultC1b.similarity < resultC1a.similarity := by
    norm_num [resultC1a, resultC1b, mkScaleResult]
  have pAC : selectPass resultC1a [resultC1c] = (resultC1c, [resultC1a]) := by
    rw [selectPass_cons_lt _ _ _ hAC, selectPass_nil]
  have pABC : selectPass resultC1a [resultC1b, resultC1c]
      = (resultC1c, [resultC1b, resultC1a]) := by
    rw [selectPass_cons_ge _ _ _ hAB, pAC]
  have pBA : selectPass resultC1b [resultC1a] = (resultC1a, [resultC1b]) := by
    rw [selectPass_cons_lt _ _ _ hBA, selectPass_nil]
  have s1 : selSortFuel 1 [resultC1b] = [resultC1b] := by
    rw [selSortFuel_cons 1 _ _ (by norm_num), selectPass_nil]
    rfl
  have s2 : selSortFuel 2 [resultC1b, resultC1a] = [resultC1a, resultC1b] := by
    rw [selSortFuel_cons 2 _ _ (by norm_num), pBA]
    simp [s1]
  have s3 : selSortFuel 3 [resultC1a, resultC1b, resultC1c]
      = [resultC1c, resultC1a, resultC1b] := by
    rw [selSortFuel_cons 3 _ _ (by norm_num), pABC]
    simp [s2]
  unfold sortBySimilarity
  exact s3

theorem run_C1_spec : specMatchAllScales 100 100 10 10 corrC1 cfgC1 10
    = [resultC1c] := by
  unfold specMatchAllScales
  rw [show cfgC1.minScale = (1 : ℚ) from rfl, candSeq_C1, sort_C1]
  rfl

/-- C1 counterexample: the code breaks the accumulation at maxResults = 1
before ever evaluating scale 3, returning only the similarity-3/5 candidate,
while the reference semantics (sort everything, then truncate) returns the
similarity-9/10 candidate found at the late-iterated scale 3. -/
theorem C1_counterexample :
    MultiScaleTemplateMatchingAll 100 100 10 10 corrC1 cfgC1 10 = .ok [resultC1a] ∧
    specMatchAllScales 100 100 10 10 corrC1 cfgC1 10 = [resultC1c] ∧
    resultC1a.similarity = 3/5 ∧ resultC1c.similarity = 9/10 ∧
    resultC1c ∉ ([resultC1a] : List MatchResult) := by
  refine ⟨run_C1_go, run_C1_spec, rfl, rfl, ?_⟩
  simp only [List.mem_singleton]
  intro h
  have := congrArg MatchResult.similarity h
  norm_num [resultC1a, resultC1c, mkScaleResult] at this

/-- C1 (amended): the multi-result search truncates during iteration, not
after sorting: its output is the sort of the first maxResults above-threshold
candidates in ascending scale order, so a higher-scoring candidate at a
later scale can be dropped. -/
theorem C1_truncation_during_iteration (srcW srcH tplW tplH : ℤ) (corr : Corr)
    (cfg : MultiScaleConfig) (fuel : ℕ) (h : 1 ≤ cfg.maxResults) :
    MultiScaleTemplateMatchingAll srcW srcH tplW tplH corr cfg fuel
      = .ok (sortBySimilarity
          ((candSeq srcW srcH tplW tplH corr cfg cfg.minScale fuel).take
            cfg.maxResults.toNat)) := by
  unfold MultiScaleTemplateMatchingAll
  rw [msAllLoop_take srcW srcH tplW tplH corr cfg fuel cfg.minScale []
    (by simp; omega)]
  simp

/-- C1 witness: the amended truncate-while-iterating semantics at the
concrete three-scale run. -/
theorem C1_truncation_during_iteration_witness :
    MultiScaleTemplateMatchingAll 100 100 10 10 corrC1 cfgC1 10
      = .ok (sortBySimilarity
          ((candSeq 100 100 10 10 corrC1 cfgC1 cfgC1.minScale 10).take
            cfgC1.maxResults.toNat)) :=
  C1_truncation_during_iteration 100 100 10 10 corrC1 cfgC1 10 (by norm_num [cfgC1])

/-! ### C8: ordering, cap, and threshold of the multi-result output -/

/-- Oracle with one strong match at the unscaled size. -/
def corrC8 : Corr := fun sz => if sz = (10, 10) then (9/10, ⟨2, 3⟩) else (0, ⟨0, 0⟩)

/-- Single scale 1, threshold 1/2, maxResults 0 (degenerate cap). -/
def cfgC8x : MultiScaleConfig := ⟨1, 1, 1, 1/2, 0⟩

/-- Single scale 1, threshold 1/2, maxResults 5. -/
def cfgC8w : MultiScaleConfig := ⟨1, 1, 1, 1/2, 5⟩

def resultC8 : MatchResult := mkScaleResult (9/10) ⟨2, 3⟩ 1 (10, 10)

/-- C8 (amended): the multi-result output is sorted descending by
similarity, every entry is at or above the threshold, and it has at most
maxResults entries whenever maxResults >= 1 (for maxResults <= 0 the
post-append break can still let one entry through). -/
theorem C8_sorted_capped_threshold (srcW srcH tplW tplH : ℤ) (corr : Corr)
    (cfg : MultiScaleConfig) (fuel : ℕ) :
    ∃ l, MultiScaleTemplateMatchingAll srcW srcH tplW tplH corr cfg fuel = .ok l ∧
      l.Pairwise (fun a b => b.similarity ≤ a.similarity) ∧
      (1 ≤ cfg.maxResults → (l.length : ℤ) ≤ cfg.maxResults) ∧
      (∀ r ∈ l, cfg.threshold ≤ r.similarity) := by
  refine ⟨_, rfl, sortBySimilarity_sorted _, ?_, ?_⟩
  · intro h1
    have hperm := sortBySimilarity_perm
      (msAllLoop srcW srcH tplW tplH corr cfg cfg.minScale fuel [])
    rw [hperm.length_eq]
    rw [msAllLoop_take srcW srcH tplW tplH corr cfg fuel cfg.minScale []
      (by simp; omega)]
    simp only [List.nil_append]
    have hlen := List.length_take
      ((cfg.maxResults - (([] : List MatchResult).length : ℤ)).toNat)
      (candSeq srcW srcH tplW tplH corr cfg cfg.minScale fuel)
    have hmin := Nat.min_le_left
      ((cfg.maxResults - (([] : List MatchResult).length : ℤ)).toNat)
      (candSeq srcW srcH tplW tplH corr cfg cfg.minScale fuel).length
    rw [hlen]
    simp only [List.length_nil] at hmin ⊢
    omega
  · intro r hr
    have hperm := sortBySimilarity_perm
      (msAllLoop srcW srcH tplW tplH corr cfg cfg.minScale fuel [])
    exact msAllLoop_threshold srcW srcH tplW tplH corr cfg fuel cfg.minScale []
      (by simp) r (hperm.mem_iff.mp hr)

/-- C8 witness: the amended properties at a concrete run with
maxResults = 5, the cap hypothesis discharged. -/
theorem C8_sorted_capped_threshold_witness :
    ∃ l, MultiScaleTemplateMatchingAll 100 100 10 10 corrC8 cfgC8w 10 = .ok l ∧
      l.Pairwise (fun a b => b.similarity ≤ a.similarity) ∧
      (l.length : ℤ) ≤ cfgC8w.maxResults ∧
      (∀ r ∈ l, cfgC8w.threshold ≤ r.similarity) := by
  obtain ⟨l, h1, h2, h3, h4⟩ := C8_sorted_capped_threshold 100 100 10 10 corrC8 cfgC8w 10
  exact ⟨l, h1, h2, h3 (by norm_num [cfgC8w]), h4⟩

/-- C8 counterexample: with maxResults = 0 the first qualifying scale is
still appended before the break check fires, so the returned list has one
entry — more than config.maxResults. -/
theorem C8_counterexample :
    MultiScaleTemplateMatchingAll 100 100 10 10 corrC8 cfgC8x 10 = .ok [resultC8] ∧
    cfgC8x.maxResults = 0 ∧
    ¬ ((([resultC8] : List MatchResult).length : ℤ) ≤ cfgC8x.maxResults) := by
  refine ⟨?_, rfl, by norm_num [cfgC8x]⟩
  unfold MultiScaleTemplateMatchingAll
  rw [show cfgC8x.minScale = (1 : ℚ) from rfl]
  rw [msAllLoop_unfold 100 100 10 10 corrC8 cfgC8x 1 10 [] (by norm_num)]
  rw [if_pos (by norm_num [cfgC8x] : (1 : ℚ) ≤ cfgC8x.maxScale)]
  rw [if_neg (by rw [scaledSize_10_1]; decide :
    ¬ sizeSkipped 100 100 (scaledSize 10 10 1))]
  have happ : msAllAppend 10 10 corrC8 cfgC8x [] 1 = [resultC8] := by
    unfold msAllAppend
    rw [scaledSize_10_1]
    rw [if_pos (by norm_num [corrC8, cfgC8x])]
    simp [corrC8, resultC8]
  rw [happ]
  rw [if_pos (by norm_num [cfgC8x] :
    cfgC8x.maxResults ≤ (([resultC8] : List MatchResult).length : ℤ))]
  rfl

end GoGameVision
